import Mathlib

/-!
Verification of the capture orchestrator of `src/screenr.py`.

The Python script drives Playwright browsers to take full-page screenshots.
We give a shallow embedding: the outcome of every external (awaited) browser
or filesystem operation is supplied by an `Env` oracle, and the control flow
of `_try_nav_and_shot`, `save_webpage_as_image` and the `/archive` route is
translated function-by-function.  Each run produces a trace of observable
events (launches, close() calls, navigation attempts, waits, scroll commands,
file writes) from which the claims are stated.

Modelling conventions:
* every awaited Playwright call that can raise is a `Res` value in `Env`
  (launch, new_context, new_page, add_init_script, goto, the two
  `page.evaluate` calls, both screenshots, `page.content`, and the
  `write_text` of the failure HTML);
* `browser.close()` is modelled as non-failing, following the Engine Handle
  contract (close is idempotent and safe to call);
* time is not modelled; `wait_for_timeout` only leaves a `waited` event;
* the filesystem is the list of successfully written paths, read off the
  trace; a screenshot either writes its file and returns, or raises and
  writes nothing.
-/

namespace Screenr

/-- Outcome of a fallible external operation: a value, or a raised
exception carrying its message. -/
inductive Res (α : Type) : Type where
  | ok (a : α)
  | err (msg : String)
deriving DecidableEq

/-- Returns `true` iff the operation did not raise. -/
def Res.isOk {α : Type} : Res α → Bool
  | .ok _ => true
  | .err _ => false

/-- The two browser engines, in the priority order of the source's
`for engine_name in ("chromium", "firefox")` loop. -/
inductive Engine : Type where
  | chromium
  | firefox
deriving DecidableEq

/-- The readiness criteria (Playwright `wait_until` load states), in the
strict-to-lenient order of the source's
`for load_state in ("networkidle", "load", "domcontentloaded")` loop. -/
inductive LoadState : Type where
  | networkidle
  | load
  | domcontentloaded
deriving DecidableEq

/-- The tuple `("networkidle", "load", "domcontentloaded")` iterated by the
inner loop. -/
def criteria : List LoadState := [.networkidle, .load, .domcontentloaded]

/-- The tuple `("chromium", "firefox")` iterated by the outer loop. -/
def engines : List Engine := [.chromium, .firefox]

/-- Strictness rank of a criterion: lower is stricter. -/
def critRank : LoadState → Nat
  | .networkidle => 0
  | .load => 1
  | .domcontentloaded => 2

/-- The criterion tried right after `c` on the same engine, if any. -/
def nextCrit : LoadState → Option LoadState
  | .networkidle => some .load
  | .load => some .domcontentloaded
  | .domcontentloaded => none

/-- Oracle for the outcomes of all external operations of one request.
Per-attempt operations are indexed by the engine and criterion of the
attempt in progress. -/
structure Env : Type where
  launch : Engine → Res Unit
  newContext : Engine → Res Unit
  newPage : Engine → Res Unit
  addInitScript : Engine → Res Unit
  goto : Engine → LoadState → Res Unit
  evalHeight : Engine → LoadState → Res Nat
  evalScroll : Engine → LoadState → Res Unit
  screenshotFull : Engine → LoadState → Res Unit
  screenshotViewport : Engine → LoadState → Res Unit
  content : Engine → LoadState → Res String
  writeFailHtml : Engine → LoadState → Res Unit

/-- Observable events of a run. `wrote p` records a successful write of
file `p`; `closed e` records a `browser.close()` invocation; `attempted`
records entry into `_try_nav_and_shot` for an engine/criterion pair. -/
inductive Event : Type where
  | launched (e : Engine)
  | closed (e : Engine)
  | attempted (e : Engine) (c : LoadState)
  | gotoOk (e : Engine) (c : LoadState)
  | waited (ms : Nat)
  | scrolled (y : Nat)
  | wrote (path : String)
deriving DecidableEq

/-! ## `Path.with_suffix`

`fail_png = out.with_suffix(".fail.png")` and
`fail_html = out.with_suffix(".fail.html")` use pathlib's rule: the old
suffix of a name starts at the last dot, provided that dot is neither the
first nor the last character; the old suffix (if any) is replaced by the
new one, otherwise the new suffix is appended.  We model it on the whole
path string, which agrees with pathlib whenever the directory part
contains no dot (true for this app's fixed upload directory). -/

/-- pathlib `with_suffix` on character lists: scanning from the right, the
old suffix starts at the last dot provided that dot is an interior
character (neither first nor last); the old suffix, if any, is dropped and
`suf` is appended. -/
def withSuffixData (l suf : List Char) : List Char :=
  match l.reverse.dropWhile (fun ch => ch ≠ '.') with
  | [] => l ++ suf
  | _ :: stemRev =>
    if stemRev = [] ∨ l.reverse.takeWhile (fun ch => ch ≠ '.') = [] then l ++ suf
    else stemRev.reverse ++ suf

/-- pathlib `Path.with_suffix` on strings. -/
def withSuffix (s suf : String) : String := ⟨withSuffixData s.data suf.data⟩

/-! ## `_try_nav_and_shot` -/

/-- One tick of the injected scroll-to-bottom timer, with an explicit step
budget so the definition is structural: each tick does
`window.scrollTo(0, y += 1200)` and the timer stops once
`y >= document.body.scrollHeight`.  The budget is a termination device
only; `scrollLoop_eq` below recovers the exact loop recurrence. -/
def scrollGo (fuel y height : Nat) : List Nat :=
  match fuel with
  | 0 => []
  | fuel + 1 =>
    if height ≤ y + 1200 then [y + 1200]
    else (y + 1200) :: scrollGo fuel (y + 1200) height

/-- The scroll positions issued by the injected scroll-to-bottom script,
starting from position `y` against document height `height`: the list of
successive arguments of `scrollTo`.  A budget of `height + 1` ticks always
suffices since each tick advances by 1200. -/
def scrollLoop (y height : Nat) : List Nat := scrollGo (height + 1) y height

/-- Events of the stabilization block of `_try_nav_and_shot`: measure
`document.body.scrollHeight`; if it is truthy and exceeds 3000 run the
scroll script (each step on a 100 ms cadence) and then wait 500 ms.  Any
exception in the block is swallowed, abandoning the rest of the block. -/
def stabEvents (env : Env) (e : Engine) (c : LoadState) : List Event :=
  match env.evalHeight e c with
  | .err _ => []
  | .ok height =>
    if 3000 < height then
      match env.evalScroll e c with
      | .err _ => []
      | .ok _ =>
        ((scrollLoop 0 height).map (fun y => [Event.waited 100, Event.scrolled y])).flatten
          ++ [Event.waited 500]
    else []

/-- Result of one navigation-and-screenshot attempt: its events, whether
it returned `True`, and the exception it raised if it failed. -/
structure Attempt : Type where
  events : List Event
  ok : Bool
  err : Option String
deriving DecidableEq

/-- One attempt with a given load state (`_try_nav_and_shot` in the
source): `goto` with the criterion, a 1500 ms settle wait, the swallowed
stabilization block, then the full-page screenshot to `out`. -/
def _try_nav_and_shot (env : Env) (out : String) (e : Engine) (c : LoadState) : Attempt :=
  match env.goto e c with
  | .err m => { events := [.attempted e c], ok := false, err := some m }
  | .ok _ =>
    let pre : List Event := [.attempted e c, .gotoOk e c, .waited 1500] ++ stabEvents env e c
    match env.screenshotFull e c with
    | .err m => { events := pre, ok := false, err := some m }
    | .ok _ => { events := pre ++ [.wrote out], ok := true, err := none }

/-! ## `save_webpage_as_image` -/

/-- Events of the failure-artifact block inside the inner `except`: a
viewport screenshot to `fail_png` in its own try/except, then
`page.content()` and `fail_html.write_text(...)` in a second independent
try/except.  Errors are printed and discarded. -/
def failArtifactEvents (env : Env) (out : String) (e : Engine) (c : LoadState) : List Event :=
  (match env.screenshotViewport e c with
    | .ok _ => [Event.wrote (withSuffix out ".fail.png")]
    | .err _ => []) ++
  (match env.content e c with
    | .ok _ =>
      match env.writeFailHtml e c with
      | .ok _ => [Event.wrote (withSuffix out ".fail.html")]
      | .err _ => []
    | .err _ => [])

/-- The inner `for load_state in (...)` loop of `save_webpage_as_image`,
given the remaining criteria and the current value of `last_err`.
Returns (events, returned-success, final `last_err`).  On a successful
attempt the browser is closed and `True` is returned immediately; on a
failed attempt `last_err` is updated, failure artifacts are attempted,
and the next criterion is tried; when the criteria run out the browser
is closed once. -/
def runCriteria (env : Env) (out : String) (e : Engine) :
    List LoadState → Option String → List Event × Bool × Option String
  | [], le => ([Event.closed e], false, le)
  | c :: rest, le =>
    let a := _try_nav_and_shot env out e c
    if a.ok then (a.events ++ [Event.closed e], true, le)
    else
      let r := runCriteria env out e rest a.err
      (a.events ++ failArtifactEvents env out e c ++ r.1, r.2.1, r.2.2)

/-- One engine's body of the outer try/except: launch, new_context,
new_page, add_init_script, then the criteria loop.  An exception in any
of the setup steps is caught by the outer `except`, which records it in
`last_err` and moves on — note that after a successful launch a setup
failure reaches no `browser.close()` (there is no finally block in the
source). -/
def runEngine (env : Env) (out : String) (e : Engine) (le : Option String) :
    List Event × Bool × Option String :=
  match env.launch e with
  | .err m => ([], false, some m)
  | .ok _ =>
    match env.newContext e with
    | .err m => ([Event.launched e], false, some m)
    | .ok _ =>
      match env.newPage e with
      | .err m => ([Event.launched e], false, some m)
      | .ok _ =>
        match env.addInitScript e with
        | .err m => ([Event.launched e], false, some m)
        | .ok _ =>
          let r := runCriteria env out e criteria le
          (Event.launched e :: r.1, r.2.1, r.2.2)

/-- The outer `for engine_name in ("chromium", "firefox")` loop: on a
`return True` from the criteria loop the whole function returns, else the
next engine is tried with the updated `last_err`. -/
def runEngines (env : Env) (out : String) :
    List Engine → Option String → List Event × Bool × Option String
  | [], le => ([], false, le)
  | e :: rest, le =>
    let r := runEngine env out e le
    if r.2.1 then r
    else
      let r2 := runEngines env out rest r.2.2
      (r.1 ++ r2.1, r2.2.1, r2.2.2)

/-- What a run of `save_webpage_as_image` yields.  `retval` is the boolean
the Python function returns to its caller; `last_err` is the final value
of the local `last_err` variable, which is only printed to the server log
(it is not part of the returned value). -/
structure RunResult : Type where
  events : List Event
  retval : Bool
  last_err : Option String
deriving DecidableEq

/-- The function `save_webpage_as_image(url, output_path)`: chromium then firefox, each
with the three readiness criteria; returns `True` on the first successful
attempt and `False` after exhausting everything. -/
def save_webpage_as_image (env : Env) (output_path : String) : RunResult :=
  let r := runEngines env output_path engines none
  { events := r.1, retval := r.2.1, last_err := r.2.2 }

/-! ## Trace projections -/

/-- Paths successfully written during a run. -/
def filesWritten (evs : List Event) : List String :=
  evs.filterMap fun ev => match ev with | .wrote p => some p | _ => none

/-- The engine/criterion pairs attempted, in order. -/
def attemptsOf (evs : List Event) : List (Engine × LoadState) :=
  evs.filterMap fun ev => match ev with | .attempted e c => some (e, c) | _ => none

/-- The scroll positions issued, in order. -/
def scrolledOf (evs : List Event) : List Nat :=
  evs.filterMap fun ev => match ev with | .scrolled y => some y | _ => none

/-- Number of successful `launch()` calls in a trace. -/
def launchCount (evs : List Event) : Nat :=
  evs.countP fun ev => match ev with | .launched _ => true | _ => false

/-- Number of `browser.close()` invocations in a trace. -/
def closeCount (evs : List Event) : Nat :=
  evs.countP fun ev => match ev with | .closed _ => true | _ => false

/-! ## Derived specification-side helpers (definitions used by lemma
statements; they are not part of the embedded program) -/

/-- Whether the per-engine setup (launch, new_context, new_page,
add_init_script) all succeeded for engine `e`. -/
def setupOk (env : Env) (e : Engine) : Bool :=
  (env.launch e).isOk && (env.newContext e).isOk &&
  (env.newPage e).isOk && (env.addInitScript e).isOk

/-- The criteria the inner loop runs through: every criterion up to and
including the first successful one, or all of them when none succeeds. -/
def takeThroughSuccess (env : Env) (out : String) (e : Engine) :
    List LoadState → List LoadState
  | [] => []
  | c :: rest =>
    if (_try_nav_and_shot env out e c).ok then [c]
    else c :: takeThroughSuccess env out e rest

/-- The full engine × criterion priority order of the orchestrator. -/
def canonicalOrder : List (Engine × LoadState) :=
  [(.chromium, .networkidle), (.chromium, .load), (.chromium, .domcontentloaded),
   (.firefox, .networkidle), (.firefox, .load), (.firefox, .domcontentloaded)]

/-- Whether engine `e` would produce a successful capture: its setup
succeeds and some criterion's attempt succeeds. -/
def engineSucceeds (env : Env) (out : String) (e : Engine) : Bool :=
  setupOk env e && criteria.any (fun c => (_try_nav_and_shot env out e c).ok)

/-- The environment with the three failure-artifact operations (viewport
screenshot, content read, failure-HTML write) replaced; used to state
that their outcomes never influence the orchestrator's control flow. -/
def withArtifacts (env : Env) (sv : Engine → LoadState → Res Unit)
    (ct : Engine → LoadState → Res String) (wf : Engine → LoadState → Res Unit) : Env :=
  { env with screenshotViewport := sv, content := ct, writeFailHtml := wf }

/-! ## The `/archive` route

`archive()` strips the form value, validates the scheme, derives the output
filename from `datetime.now()` formatted as `%Y%m%d%H%M%S`, runs
`save_webpage_as_image`, and renders a result page.  `datetime.now()` is a
parameter of the model, as is the set of files already on disk before the
request. -/

/-- Python `str.strip()`: remove leading and trailing whitespace. -/
def strip (s : String) : String :=
  ⟨((s.data.dropWhile Char.isWhitespace).reverse.dropWhile Char.isWhitespace).reverse⟩

/-- Python `str.startswith(p)`. -/
def startswith (s p : String) : Bool :=
  decide (s.data.take p.data.length = p.data)

/-- Python `", ".join(...)` as used for the failure hints. -/
def joinHints : List String → String
  | [] => ""
  | [h] => h
  | h :: rest => h ++ ", " ++ joinHints rest

/-- The timestamp taken by `datetime.now()` at the start of the request. -/
structure DateTime : Type where
  year : Nat
  month : Nat
  day : Nat
  hour : Nat
  minute : Nat
  second : Nat
deriving DecidableEq

/-- The decimal digit character for `n % 10`. -/
def digitChar (n : Nat) : Char := Char.ofNat (48 + n % 10)

/-- Two-digit zero-padded decimal rendering (as `%m`, `%d`, `%H`, `%M`,
`%S` produce for their in-range values). -/
def pad2 (n : Nat) : String := ⟨[digitChar (n / 10), digitChar n]⟩

/-- Four-digit zero-padded decimal rendering (as `%Y` produces for years
below 10000). -/
def pad4 (n : Nat) : String :=
  ⟨[digitChar (n / 1000), digitChar (n / 100), digitChar (n / 10), digitChar n]⟩

/-- The `%Y%m%d%H%M%S` format string applied to the request timestamp. -/
def formatTimestamp (dt : DateTime) : String :=
  pad4 dt.year ++ pad2 dt.month ++ pad2 dt.day ++ pad2 dt.hour ++ pad2 dt.minute ++ pad2 dt.second

/-- Characters kept by werkzeug's `secure_filename` (ASCII letters,
digits, dot, underscore, dash). -/
def isAllowedFilenameChar (ch : Char) : Bool :=
  ch.isAlphanum || ch = '.' || ch = '_' || ch = '-'

/-- werkzeug `secure_filename`, modelled as dropping disallowed
characters; on the `screenr_<digits>.png` names this route produces it is
the identity, which is all the claims rely on. -/
def secure_filename (s : String) : String := ⟨s.data.filter isAllowedFilenameChar⟩

/-- Storage directory of the app. -/
def UPLOAD_DIRECTORY : String := "/mnt/storage/uploads"

/-- The name `secure_filename(f"screenr_" + now + ".png")` computed by the route. -/
def archiveFilename (dt : DateTime) : String :=
  secure_filename ("screenr_" ++ formatTimestamp dt ++ ".png")

/-- The template context the route renders: the status message, its CSS
class, and the preview image URL, each absent when not passed. -/
structure ArchivePage : Type where
  message : Option String
  message_type : Option String
  image_url : Option String
deriving DecidableEq

/-- Everything observable about one handling of `POST /archive`: the
rendered page, the orchestrator events (empty when the pipeline was never
invoked), the `hint` list the route built from the on-disk checks, and the
target path it printed (none when validation rejected the URL). -/
structure ArchiveResult : Type where
  page : ArchivePage
  events : List Event
  hints : List String
  target : Option String
deriving DecidableEq

/-- The `/archive` route body.  `fs0` is the set of paths already on disk
when the request arrives; the disk seen by the `exists()` checks is `fs0`
plus whatever this run wrote. -/
def archive (env : Env) (fs0 : List String) (dt : DateTime) (form_url : String) :
    ArchiveResult :=
  let url := strip form_url
  if !(startswith url "http://" || startswith url "https://") then
    { page := { message := some "Provide a valid http(s) URL.",
                message_type := some "error", image_url := none },
      events := [], hints := [], target := none }
  else
    let filename := archiveFilename dt
    let output_path := UPLOAD_DIRECTORY ++ "/" ++ filename
    let r := save_webpage_as_image env output_path
    let fs := fs0 ++ filesWritten r.events
    if r.retval && decide (output_path ∈ fs) then
      { page := { message := some ("Archived " ++ url ++ "."),
                  message_type := some "success",
                  image_url := some ("/uploads/" ++ filename) },
        events := r.events, hints := [], target := some output_path }
    else
      let fail_png := withSuffix output_path ".fail.png"
      let fail_html := withSuffix output_path ".fail.html"
      let hint :=
        (if fail_png ∈ fs then ["fail PNG at " ++ fail_png] else []) ++
        (if fail_html ∈ fs then ["fail HTML at " ++ fail_html] else [])
      let hintText := if hint = [] then "" else " See: " ++ joinHints hint
      { page := { message := some ("Failed to archive " ++ url ++ "." ++ hintText),
                  message_type := some "error", image_url := none },
        events := r.events, hints := hint, target := some output_path }

/-! ## Concrete environments exercising the model -/

/-- Everything succeeds; the page is short (1000 px). -/
def envAllOk : Env where
  launch := fun _ => .ok ()
  newContext := fun _ => .ok ()
  newPage := fun _ => .ok ()
  addInitScript := fun _ => .ok ()
  goto := fun _ _ => .ok ()
  evalHeight := fun _ _ => .ok 1000
  evalScroll := fun _ _ => .ok ()
  screenshotFull := fun _ _ => .ok ()
  screenshotViewport := fun _ _ => .ok ()
  content := fun _ _ => .ok "<html></html>"
  writeFailHtml := fun _ _ => .ok ()

/-- Everything succeeds; the page is tall (3100 px), triggering the
scroll-to-bottom routine. -/
def envTall : Env where
  launch := fun _ => .ok ()
  newContext := fun _ => .ok ()
  newPage := fun _ => .ok ()
  addInitScript := fun _ => .ok ()
  goto := fun _ _ => .ok ()
  evalHeight := fun _ _ => .ok 3100
  evalScroll := fun _ _ => .ok ()
  screenshotFull := fun _ _ => .ok ()
  screenshotViewport := fun _ _ => .ok ()
  content := fun _ _ => .ok "<html></html>"
  writeFailHtml := fun _ _ => .ok ()

/-- Chromium launches but its context creation raises; firefox fails to
launch.  Exercises the leak path of the outer `except`. -/
def envLeak : Env where
  launch := fun e => match e with
    | .chromium => .ok ()
    | .firefox => .err "firefox executable not found"
  newContext := fun _ => .err "browser context creation failed"
  newPage := fun _ => .err "unreachable"
  addInitScript := fun _ => .err "unreachable"
  goto := fun _ _ => .err "unreachable"
  evalHeight := fun _ _ => .err "unreachable"
  evalScroll := fun _ _ => .err "unreachable"
  screenshotFull := fun _ _ => .err "unreachable"
  screenshotViewport := fun _ _ => .err "unreachable"
  content := fun _ _ => .err "unreachable"
  writeFailHtml := fun _ _ => .err "unreachable"

/-- Every navigation fails (the final pair with message `E_FINAL`);
failure artifacts also fail, so nothing is written. -/
def envAllFail : Env where
  launch := fun _ => .ok ()
  newContext := fun _ => .ok ()
  newPage := fun _ => .ok ()
  addInitScript := fun _ => .ok ()
  goto := fun e c => match e, c with
    | .firefox, .domcontentloaded => .err "E_FINAL"
    | _, _ => .err "nav timeout"
  evalHeight := fun _ _ => .err "unreachable"
  evalScroll := fun _ _ => .err "unreachable"
  screenshotFull := fun _ _ => .err "unreachable"
  screenshotViewport := fun _ _ => .err "viewport shot failed"
  content := fun _ _ => .err "content failed"
  writeFailHtml := fun _ _ => .err "unreachable"

/-- Chromium's launch itself raises; firefox launches but all its
navigations fail. -/
def envSetupFail : Env where
  launch := fun e => match e with
    | .chromium => .err "chromium executable not found"
    | .firefox => .ok ()
  newContext := fun _ => .ok ()
  newPage := fun _ => .ok ()
  addInitScript := fun _ => .ok ()
  goto := fun _ _ => .err "nav timeout"
  evalHeight := fun _ _ => .err "unreachable"
  evalScroll := fun _ _ => .err "unreachable"
  screenshotFull := fun _ _ => .err "unreachable"
  screenshotViewport := fun _ _ => .err "viewport shot failed"
  content := fun _ _ => .err "content failed"
  writeFailHtml := fun _ _ => .err "unreachable"

/-- Every navigation fails, but the failure artifacts succeed, so the two
diagnostic files are written on each failed attempt. -/
def envFailArt : Env where
  launch := fun _ => .ok ()
  newContext := fun _ => .ok ()
  newPage := fun _ => .ok ()
  addInitScript := fun _ => .ok ()
  goto := fun _ _ => .err "net::ERR_NAME_NOT_RESOLVED"
  evalHeight := fun _ _ => .err "unreachable"
  evalScroll := fun _ _ => .err "unreachable"
  screenshotFull := fun _ _ => .err "unreachable"
  screenshotViewport := fun _ _ => .ok ()
  content := fun _ _ => .ok "<html>error page</html>"
  writeFailHtml := fun _ _ => .ok ()

/-! ## Helper lemmas -/

/-- The head of the remainder of a `dropWhile` falsifies the predicate. -/
theorem dropWhile_head_false {α : Type} {p : α → Bool} :
    ∀ {l : List α} {c : α} {rest : List α}, l.dropWhile p = c :: rest → p c = false := by
  intro l
  induction l with
  | nil => intro c rest h; simp at h
  | cons a l ih =>
    intro c rest h
    rw [List.dropWhile_cons] at h
    by_cases hp : p a
    · rw [if_pos hp] at h; exact ih h
    · rw [if_neg hp] at h
      cases h
      simpa using hp

/-- A `with_suffix` result with a new suffix that contains an interior dot
is never the original path: an old suffix never contains a second dot. -/
theorem withSuffixData_ne_self {l suf tl : List Char}
    (hs : suf = '.' :: tl) (hd : '.' ∈ tl) : withSuffixData l suf ≠ l := by
  unfold withSuffixData
  rcases hdw : l.reverse.dropWhile (fun ch => ch ≠ '.') with _ | ⟨c, stemRev⟩
  · intro h
    have hlen := congrArg List.length h
    simp [hs] at hlen
  · show (if stemRev = [] ∨ l.reverse.takeWhile (fun ch => ch ≠ '.') = [] then l ++ suf
      else stemRev.reverse ++ suf) ≠ l
    by_cases hb : stemRev = [] ∨ l.reverse.takeWhile (fun ch => ch ≠ '.') = []
    · rw [if_pos hb]
      intro h
      have hlen := congrArg List.length h
      simp [hs] at hlen
    · rw [if_neg hb]
      have hc : c = '.' := by
        have hh := dropWhile_head_false hdw
        simpa using hh
      have hsplit :
          l.reverse.takeWhile (fun ch => ch ≠ '.') ++ (c :: stemRev) = l.reverse := by
        rw [← hdw]; exact List.takeWhile_append_dropWhile _ _
      have hl : l = stemRev.reverse ++ (c :: (l.reverse.takeWhile (fun ch => ch ≠ '.')).reverse) := by
        have h2 := congrArg List.reverse hsplit
        simpa [List.reverse_append] using h2.symm
      intro h
      rw [hl, hc] at h
      have hcancel := List.append_cancel_left h
      rw [hs] at hcancel
      have htl : tl = (l.reverse.takeWhile (fun ch => ch ≠ '.')).reverse :=
        (List.cons_eq_cons.mp hcancel).2
      rw [htl] at hd
      have hdot : ('.' : Char) ∈ l.reverse.takeWhile (fun ch => ch ≠ '.') :=
        List.mem_reverse.mp hd
      have h3 := List.mem_takeWhile_imp hdot
      simp at h3

/-- Applying `with_suffix` with different new suffixes gives different paths. -/
theorem withSuffixData_inj_suffix (l : List Char) {s₁ s₂ : List Char} (h12 : s₁ ≠ s₂) :
    withSuffixData l s₁ ≠ withSuffixData l s₂ := by
  unfold withSuffixData
  rcases l.reverse.dropWhile (fun ch => ch ≠ '.') with _ | ⟨c, stemRev⟩
  · intro h; exact h12 (List.append_cancel_left h)
  · show (if stemRev = [] ∨ l.reverse.takeWhile (fun ch => ch ≠ '.') = [] then l ++ s₁
        else stemRev.reverse ++ s₁) ≠
      (if stemRev = [] ∨ l.reverse.takeWhile (fun ch => ch ≠ '.') = [] then l ++ s₂
        else stemRev.reverse ++ s₂)
    by_cases hb : stemRev = [] ∨ l.reverse.takeWhile (fun ch => ch ≠ '.') = []
    · rw [if_pos hb, if_pos hb]
      intro h; exact h12 (List.append_cancel_left h)
    · rw [if_neg hb, if_neg hb]
      intro h; exact h12 (List.append_cancel_left h)

/-- The derived `.fail.png` path differs from the primary output path. -/
theorem withSuffix_png_ne_self (s : String) : withSuffix s ".fail.png" ≠ s := by
  intro h
  have hdata := congrArg String.data h
  exact @withSuffixData_ne_self s.data ".fail.png".data "fail.png".data (by decide) (by decide) hdata

/-- The derived `.fail.html` path differs from the primary output path. -/
theorem withSuffix_html_ne_self (s : String) : withSuffix s ".fail.html" ≠ s := by
  intro h
  have hdata := congrArg String.data h
  exact @withSuffixData_ne_self s.data ".fail.html".data "fail.html".data (by decide) (by decide) hdata

/-- The two failure-artifact paths differ from each other. -/
theorem withSuffix_png_ne_html (s : String) :
    withSuffix s ".fail.png" ≠ withSuffix s ".fail.html" := by
  intro h
  have hdata := congrArg String.data h
  exact withSuffixData_inj_suffix s.data (by decide) hdata

/-- Case analysis on one navigation attempt: `goto` raised; or `goto`
succeeded and the full-page screenshot raised; or both succeeded, in which
case (and only then) the primary artifact was written. -/
theorem attempt_shape (env : Env) (out : String) (e : Engine) (c : LoadState) :
    (∃ m, env.goto e c = .err m ∧
      _try_nav_and_shot env out e c = ⟨[.attempted e c], false, some m⟩) ∨
    (env.goto e c = .ok () ∧ ∃ m, env.screenshotFull e c = .err m ∧
      _try_nav_and_shot env out e c =
        ⟨[.attempted e c, .gotoOk e c, .waited 1500] ++ stabEvents env e c,
          false, some m⟩) ∨
    (env.goto e c = .ok () ∧ env.screenshotFull e c = .ok () ∧
      _try_nav_and_shot env out e c =
        ⟨([.attempted e c, .gotoOk e c, .waited 1500] ++ stabEvents env e c)
            ++ [.wrote out], true, none⟩) := by
  unfold _try_nav_and_shot
  cases hg : env.goto e c with
  | err m => exact Or.inl ⟨m, rfl, rfl⟩
  | ok u =>
    cases u
    cases hs : env.screenshotFull e c with
    | err m => exact Or.inr (Or.inl ⟨rfl, m, rfl, by simp⟩)
    | ok u => cases u; exact Or.inr (Or.inr ⟨rfl, rfl, by simp⟩)

/-- The attempt returns `True` exactly when navigation and the full-page
screenshot both succeeded; the stabilization block has no influence. -/
theorem attempt_ok_eq (env : Env) (out : String) (e : Engine) (c : LoadState) :
    (_try_nav_and_shot env out e c).ok =
      ((env.goto e c).isOk && (env.screenshotFull e c).isOk) := by
  unfold _try_nav_and_shot
  cases env.goto e c with
  | err m => rfl
  | ok u =>
    cases u
    cases env.screenshotFull e c with
    | err m => rfl
    | ok u => cases u; rfl

/-- A failed attempt carries the exception it raised. -/
theorem attempt_err_isSome (env : Env) (out : String) (e : Engine) (c : LoadState)
    (h : (_try_nav_and_shot env out e c).ok = false) :
    (_try_nav_and_shot env out e c).err.isSome = true := by
  rcases attempt_shape env out e c with ⟨m, _, ha⟩ | ⟨_, m, _, ha⟩ | ⟨_, _, ha⟩ <;>
    rw [ha] at h ⊢ <;> simp_all

/-- Stabilization only waits and scrolls: every event it emits is a
`waited` or a `scrolled`. -/
theorem mem_stabEvents {ev : Event} {env : Env} {e : Engine} {c : LoadState}
    (h : ev ∈ stabEvents env e c) :
    (∃ y, ev = .scrolled y) ∨ (∃ ms, ev = .waited ms) := by
  cases hht : env.evalHeight e c with
  | err m => simp only [stabEvents, hht] at h; simp at h
  | ok height =>
    simp only [stabEvents, hht] at h
    by_cases hh : 3000 < height
    · rw [if_pos hh] at h
      cases hsc : env.evalScroll e c with
      | err m => simp only [hsc] at h; simp at h
      | ok u =>
        simp only [hsc] at h
        rw [List.mem_append, List.mem_flatten] at h
        rcases h with ⟨lst, hlst, hev⟩ | hev
        · rcases List.mem_map.mp hlst with ⟨y, _, rfl⟩
          simp only [List.mem_cons, List.not_mem_nil, or_false] at hev
          rcases hev with rfl | rfl
          · exact Or.inr ⟨100, rfl⟩
          · exact Or.inl ⟨y, rfl⟩
        · simp only [List.mem_singleton] at hev
          subst hev
          exact Or.inr ⟨500, rfl⟩
    · rw [if_neg hh] at h; simp at h

/-- Stabilization never issues a navigation attempt. -/
theorem attemptsOf_stabEvents (env : Env) (e : Engine) (c : LoadState) :
    attemptsOf (stabEvents env e c) = [] := by
  rw [attemptsOf, List.filterMap_eq_nil_iff]
  intro ev hev
  rcases mem_stabEvents hev with ⟨y, rfl⟩ | ⟨ms, rfl⟩ <;> rfl

/-- Stabilization never writes a file. -/
theorem count_wrote_stabEvents (out : String) (env : Env) (e : Engine) (c : LoadState) :
    List.count (Event.wrote out) (stabEvents env e c) = 0 := by
  rw [List.count_eq_zero]
  intro hmem
  rcases mem_stabEvents hmem with ⟨y, h⟩ | ⟨ms, h⟩ <;> simp at h

/-- The failure-artifact block writes only the two derived diagnostic
paths. -/
theorem mem_failArtifactEvents {ev : Event} {env : Env} {out : String}
    {e : Engine} {c : LoadState} (h : ev ∈ failArtifactEvents env out e c) :
    ev = .wrote (withSuffix out ".fail.png") ∨
    ev = .wrote (withSuffix out ".fail.html") := by
  unfold failArtifactEvents at h
  rw [List.mem_append] at h
  rcases h with h | h
  · cases hv : env.screenshotViewport e c with
    | ok u => rw [hv] at h; simp at h; exact Or.inl h
    | err m => rw [hv] at h; simp at h
  · cases hc : env.content e c with
    | err m => rw [hc] at h; simp at h
    | ok s =>
      rw [hc] at h
      cases hw : env.writeFailHtml e c with
      | ok u => rw [hw] at h; simp at h; exact Or.inr h
      | err m => rw [hw] at h; simp at h

/-- The run of `scrollGo` does not depend on the budget, as long as the
budget is positive and large enough to reach the document height. -/
theorem scrollGo_congr :
    ∀ f₁ f₂ y height, height ≤ y + 1200 * f₁ → height ≤ y + 1200 * f₂ →
      1 ≤ f₁ → 1 ≤ f₂ → scrollGo f₁ y height = scrollGo f₂ y height := by
  intro f₁
  induction f₁ with
  | zero => omega
  | succ s ih =>
    intro f₂ y height h₁ h₂ _ hf₂
    match f₂, hf₂ with
    | t + 1, _ =>
      simp only [scrollGo]
      by_cases hle : height ≤ y + 1200
      · simp [hle]
      · simp only [hle, if_false]
        have hs : 1 ≤ s := by omega
        have ht : 1 ≤ t := by omega
        rw [ih t (y + 1200) height (by omega) (by omega) hs ht]

/-- The defining recurrence of the scroll loop: issue `y + 1200`; stop if
that reached the document height, else keep going. -/
theorem scrollLoop_eq (y height : Nat) :
    scrollLoop y height =
      if height ≤ y + 1200 then [y + 1200]
      else (y + 1200) :: scrollLoop (y + 1200) height := by
  show scrollGo (height + 1) y height = _
  rw [scrollGo]
  by_cases hle : height ≤ y + 1200
  · simp [hle]
  · simp only [hle, if_false]
    have h1200 : 1200 ≤ height := by omega
    rw [scrollGo_congr height (height + 1) (y + 1200) height (by omega) (by omega)
      (by omega) (by omega)]
    rfl

/-- The failure-artifact block never issues a navigation attempt. -/
theorem attemptsOf_failArtifacts (env : Env) (out : String) (e : Engine) (c : LoadState) :
    attemptsOf (failArtifactEvents env out e c) = [] := by
  rw [attemptsOf, List.filterMap_eq_nil_iff]
  intro ev hev
  rcases mem_failArtifactEvents hev with rfl | rfl <;> rfl

/-- The failure-artifact block never writes the primary output path. -/
theorem count_wrote_failArtifacts (env : Env) (out : String) (e : Engine) (c : LoadState) :
    List.count (Event.wrote out) (failArtifactEvents env out e c) = 0 := by
  rw [List.count_eq_zero]
  intro hmem
  rcases mem_failArtifactEvents hmem with h | h
  · exact withSuffix_png_ne_self out (by injection h.symm)
  · exact withSuffix_html_ne_self out (by injection h.symm)

/-- The projection `attemptsOf` distributes over concatenation. -/
theorem attemptsOf_append (l₁ l₂ : List Event) :
    attemptsOf (l₁ ++ l₂) = attemptsOf l₁ ++ attemptsOf l₂ :=
  List.filterMap_append l₁ l₂ _

/-- Each attempt issues exactly its own engine/criterion pair. -/
theorem attemptsOf_attempt (env : Env) (out : String) (e : Engine) (c : LoadState) :
    attemptsOf (_try_nav_and_shot env out e c).events = [(e, c)] := by
  rcases attempt_shape env out e c with ⟨m, _, ha⟩ | ⟨_, m, _, ha⟩ | ⟨_, _, ha⟩
  · rw [ha]; rfl
  · rw [ha]
    show attemptsOf ([.attempted e c, .gotoOk e c, .waited 1500] ++ stabEvents env e c) = _
    rw [attemptsOf_append, attemptsOf_stabEvents env e c]
    rfl
  · rw [ha]
    show attemptsOf (([.attempted e c, .gotoOk e c, .waited 1500] ++ stabEvents env e c)
        ++ [.wrote out]) = _
    rw [attemptsOf_append, attemptsOf_append, attemptsOf_stabEvents env e c]
    rfl

/-- An attempt writes the primary path exactly when it succeeds. -/
theorem count_wrote_attempt (env : Env) (out : String) (e : Engine) (c : LoadState) :
    List.count (Event.wrote out) (_try_nav_and_shot env out e c).events =
      if (_try_nav_and_shot env out e c).ok then 1 else 0 := by
  rcases attempt_shape env out e c with ⟨m, _, ha⟩ | ⟨_, m, _, ha⟩ | ⟨_, _, ha⟩ <;>
    rw [ha] <;>
    simp [List.count_append, List.count_cons, count_wrote_stabEvents out env e c]

/-- Attempts of the criteria loop: each criterion up to and including the
first success, tagged with the engine. -/
theorem rc_attempts (env : Env) (out : String) (e : Engine) :
    ∀ (cs : List LoadState) (le : Option String),
      attemptsOf (runCriteria env out e cs le).1 =
        (takeThroughSuccess env out e cs).map (fun c => (e, c)) := by
  intro cs
  induction cs with
  | nil =>
    intro le
    simp [runCriteria, takeThroughSuccess, attemptsOf]
  | cons c rest ih =>
    intro le
    by_cases hok : (_try_nav_and_shot env out e c).ok
    · simp only [runCriteria, takeThroughSuccess, hok, if_true]
      rw [attemptsOf_append, attemptsOf_attempt env out e c]
      rfl
    · simp only [runCriteria, takeThroughSuccess, hok, if_false, Bool.false_eq_true]
      rw [attemptsOf_append, attemptsOf_append, attemptsOf_attempt env out e c,
        attemptsOf_failArtifacts env out e c, ih]
      rfl

/-- The criteria loop returns `True` exactly when some criterion's attempt
succeeds. -/
theorem rc_flag (env : Env) (out : String) (e : Engine) :
    ∀ (cs : List LoadState) (le : Option String),
      (runCriteria env out e cs le).2.1 =
        cs.any (fun c => (_try_nav_and_shot env out e c).ok) := by
  intro cs
  induction cs with
  | nil => intro le; simp [runCriteria]
  | cons c rest ih =>
    intro le
    by_cases hok : (_try_nav_and_shot env out e c).ok
    · simp [runCriteria, hok]
    · simp [runCriteria, hok, ih]

/-- When the criteria loop exhausts a nonempty criteria list without
success, it leaves a recorded exception in `last_err`. -/
theorem rc_err (env : Env) (out : String) (e : Engine) :
    ∀ (cs : List LoadState) (le : Option String), cs ≠ [] →
      (runCriteria env out e cs le).2.1 = false →
      (runCriteria env out e cs le).2.2.isSome = true := by
  intro cs
  induction cs with
  | nil => intro le h; exact absurd rfl h
  | cons c rest ih =>
    intro le _ hflag
    by_cases hok : (_try_nav_and_shot env out e c).ok
    · simp [runCriteria, hok] at hflag
    · simp only [runCriteria, hok, if_false, Bool.false_eq_true] at hflag ⊢
      cases hr : rest with
      | nil =>
        subst hr
        simp only [runCriteria]
        exact attempt_err_isSome env out e c (by simpa using hok)
      | cons c' rest' =>
        subst hr
        exact ih _ (by simp) hflag

/-- The criteria loop writes the primary path exactly once when it
succeeds, and never otherwise. -/
theorem rc_count (env : Env) (out : String) (e : Engine) :
    ∀ (cs : List LoadState) (le : Option String),
      List.count (Event.wrote out) (runCriteria env out e cs le).1 =
        if (runCriteria env out e cs le).2.1 then 1 else 0 := by
  intro cs
  induction cs with
  | nil => intro le; simp [runCriteria]
  | cons c rest ih =>
    intro le
    by_cases hok : (_try_nav_and_shot env out e c).ok
    · simp [runCriteria, hok, List.count_append, count_wrote_attempt env out e c]
    · simp [runCriteria, hok, List.count_append, count_wrote_attempt env out e c,
        count_wrote_failArtifacts env out e c, ih]

/-- Case analysis on one engine's body: either some setup step raised, in
which case nothing was attempted, nothing was written, and the exception
went to `last_err`; or setup succeeded and the run is the launch event
followed by the criteria loop. -/
theorem runEngine_cases (env : Env) (out : String) (e : Engine) (le : Option String) :
    (setupOk env e = false ∧ (runEngine env out e le).2.1 = false ∧
      (runEngine env out e le).2.2.isSome = true ∧
      attemptsOf (runEngine env out e le).1 = [] ∧
      List.count (Event.wrote out) (runEngine env out e le).1 = 0) ∨
    (setupOk env e = true ∧
      runEngine env out e le =
        (Event.launched e :: (runCriteria env out e criteria le).1,
         (runCriteria env out e criteria le).2.1,
         (runCriteria env out e criteria le).2.2)) := by
  unfold runEngine
  cases hl : env.launch e with
  | err m => left; simp [setupOk, hl, Res.isOk, attemptsOf]
  | ok u =>
    cases u
    cases hc : env.newContext e with
    | err m => left; simp [setupOk, hl, hc, Res.isOk, attemptsOf]
    | ok u =>
      cases u
      cases hp : env.newPage e with
      | err m => left; simp [setupOk, hl, hc, hp, Res.isOk, attemptsOf]
      | ok u =>
        cases u
        cases hi : env.addInitScript e with
        | err m => left; simp [setupOk, hl, hc, hp, hi, Res.isOk, attemptsOf]
        | ok u =>
          cases u
          right
          exact ⟨by simp [setupOk, hl, hc, hp, hi, Res.isOk], rfl⟩

/-- The engine body returns `True` exactly when `engineSucceeds`. -/
theorem re_flag (env : Env) (out : String) (e : Engine) (le : Option String) :
    (runEngine env out e le).2.1 = engineSucceeds env out e := by
  rcases runEngine_cases env out e le with ⟨hs, hf, _⟩ | ⟨hs, hre⟩
  · rw [hf, engineSucceeds, hs]; rfl
  · rw [hre, engineSucceeds, hs]
    simp [rc_flag env out e criteria le]

/-- Attempts of the engine body: none when setup failed, otherwise the
criteria up to and including the first success. -/
theorem re_attempts (env : Env) (out : String) (e : Engine) (le : Option String) :
    attemptsOf (runEngine env out e le).1 =
      if setupOk env e then
        (takeThroughSuccess env out e criteria).map (fun c => (e, c))
      else [] := by
  rcases runEngine_cases env out e le with ⟨hs, _, _, ha, _⟩ | ⟨hs, hre⟩
  · rw [ha, hs]; rfl
  · rw [hre, hs, if_pos rfl]
    show attemptsOf (Event.launched e :: (runCriteria env out e criteria le).1) = _
    have : attemptsOf (Event.launched e :: (runCriteria env out e criteria le).1) =
        attemptsOf (runCriteria env out e criteria le).1 := rfl
    rw [this, rc_attempts env out e criteria le]

/-- Primary-path writes of the engine body: one exactly when the engine
succeeds. -/
theorem re_count (env : Env) (out : String) (e : Engine) (le : Option String) :
    List.count (Event.wrote out) (runEngine env out e le).1 =
      if engineSucceeds env out e then 1 else 0 := by
  rcases runEngine_cases env out e le with ⟨hs, _, _, _, hc⟩ | ⟨hs, hre⟩
  · rw [hc, engineSucceeds, hs]; rfl
  · rw [hre]
    show List.count (Event.wrote out) (Event.launched e :: (runCriteria env out e criteria le).1) = _
    rw [List.count_cons]
    simp only [rc_count env out e criteria le, rc_flag env out e criteria le,
      engineSucceeds, hs, Bool.true_and]
    simp

/-- A failed engine body leaves a recorded exception. -/
theorem re_err (env : Env) (out : String) (e : Engine) (le : Option String)
    (h : (runEngine env out e le).2.1 = false) :
    (runEngine env out e le).2.2.isSome = true := by
  rcases runEngine_cases env out e le with ⟨_, _, hi, _, _⟩ | ⟨_, hre⟩
  · exact hi
  · rw [hre] at h ⊢
    exact rc_err env out e criteria le (by simp [criteria]) h

/-- Case analysis on the whole orchestrator run: chromium succeeds and the
run is chromium's events alone; or chromium does not succeed and the run is
chromium's events followed by firefox's, with firefox's outcome. -/
theorem save_cases (env : Env) (out : String) :
    (engineSucceeds env out .chromium = true ∧
      (save_webpage_as_image env out).events = (runEngine env out .chromium none).1 ∧
      (save_webpage_as_image env out).retval = true ∧
      (save_webpage_as_image env out).last_err = (runEngine env out .chromium none).2.2) ∨
    (engineSucceeds env out .chromium = false ∧
      (save_webpage_as_image env out).events =
        (runEngine env out .chromium none).1 ++
        (runEngine env out .firefox (runEngine env out .chromium none).2.2).1 ∧
      (save_webpage_as_image env out).retval = engineSucceeds env out .firefox ∧
      (save_webpage_as_image env out).last_err =
        (runEngine env out .firefox (runEngine env out .chromium none).2.2).2.2) := by
  have hrw : runEngines env out engines none =
      (if (runEngine env out Engine.chromium none).2.1 then runEngine env out Engine.chromium none
       else ((runEngine env out Engine.chromium none).1 ++
              (runEngines env out [Engine.firefox] (runEngine env out Engine.chromium none).2.2).1,
             (runEngines env out [Engine.firefox] (runEngine env out Engine.chromium none).2.2).2.1,
             (runEngines env out [Engine.firefox] (runEngine env out Engine.chromium none).2.2).2.2)) :=
    rfl
  have hrw2 : ∀ le, runEngines env out [Engine.firefox] le =
      (if (runEngine env out Engine.firefox le).2.1 then runEngine env out Engine.firefox le
       else ((runEngine env out Engine.firefox le).1 ++ ([] : List Event), false,
             (runEngine env out Engine.firefox le).2.2)) :=
    fun _ => rfl
  by_cases hcf : engineSucceeds env out .chromium = true
  · left
    have hflag : (runEngine env out .chromium none).2.1 = true := by
      rw [re_flag env out .chromium none]; exact hcf
    have hsave : runEngines env out engines none = runEngine env out Engine.chromium none := by
      rw [hrw, if_pos hflag]
    refine ⟨hcf, ?_, ?_, ?_⟩ <;>
      simp only [save_webpage_as_image, hsave]
    · exact hflag
  · right
    have hcf' : engineSucceeds env out .chromium = false := by simpa using hcf
    have hflag : (runEngine env out .chromium none).2.1 = false := by
      rw [re_flag env out .chromium none]; exact hcf'
    have hfire : runEngines env out [Engine.firefox] (runEngine env out Engine.chromium none).2.2 =
        runEngine env out Engine.firefox (runEngine env out Engine.chromium none).2.2 := by
      rw [hrw2]
      by_cases hff : (runEngine env out Engine.firefox (runEngine env out Engine.chromium none).2.2).2.1 = true
      · rw [if_pos hff]
      · have hff' : (runEngine env out Engine.firefox
            (runEngine env out Engine.chromium none).2.2).2.1 = false := by simpa using hff
        rw [if_neg hff, List.append_nil, ← hff']
    have hsave : runEngines env out engines none =
        ((runEngine env out Engine.chromium none).1 ++
          (runEngine env out Engine.firefox (runEngine env out Engine.chromium none).2.2).1,
         (runEngine env out Engine.firefox (runEngine env out Engine.chromium none).2.2).2.1,
         (runEngine env out Engine.firefox (runEngine env out Engine.chromium none).2.2).2.2) := by
      rw [hrw, if_neg (by rw [hflag]; exact Bool.false_ne_true), hfire]
    refine ⟨hcf', ?_, ?_, ?_⟩ <;>
      simp only [save_webpage_as_image, hsave]
    exact re_flag env out .firefox (runEngine env out Engine.chromium none).2.2

/-- The criteria actually attempted form a sublist (in order) of the full
criteria list. -/
theorem tts_sublist (env : Env) (out : String) (e : Engine) :
    ∀ cs : List LoadState, (takeThroughSuccess env out e cs).Sublist cs := by
  intro cs
  induction cs with
  | nil => exact List.Sublist.refl []
  | cons c rest ih =>
    by_cases hok : (_try_nav_and_shot env out e c).ok
    · simp only [takeThroughSuccess, hok, if_true]
      exact (List.nil_sublist rest).cons₂ c
    · simp only [takeThroughSuccess, hok, if_false, Bool.false_eq_true]
      exact ih.cons₂ c

/-- Within an engine, a criterion is attempted only after every stricter
criterion was attempted and failed. -/
theorem tts_strict (env : Env) (out : String) (e : Engine) :
    ∀ {c c' : LoadState}, c ∈ takeThroughSuccess env out e criteria →
      critRank c' < critRank c →
      c' ∈ takeThroughSuccess env out e criteria ∧
        (_try_nav_and_shot env out e c').ok = false := by
  intro c c' hmem hrank
  by_cases h1 : (_try_nav_and_shot env out e .networkidle).ok
  · have htts : takeThroughSuccess env out e criteria = [.networkidle] := by
      simp [criteria, takeThroughSuccess, h1]
    rw [htts] at hmem ⊢
    simp only [List.mem_singleton] at hmem
    subst hmem
    cases c' <;> simp [critRank] at hrank
  · by_cases h2 : (_try_nav_and_shot env out e .load).ok
    · have htts : takeThroughSuccess env out e criteria = [.networkidle, .load] := by
        simp [criteria, takeThroughSuccess, h1, h2]
      rw [htts] at hmem ⊢
      cases c <;> cases c' <;> simp_all [critRank]
    · have htts : takeThroughSuccess env out e criteria =
          [.networkidle, .load, .domcontentloaded] := by
        simp [criteria, takeThroughSuccess, h1, h2]
      rw [htts] at hmem ⊢
      cases c <;> cases c' <;> simp_all [critRank]

/-- A successful criterion is the last one attempted on its engine. -/
theorem tts_last_of_ok (env : Env) (out : String) (e : Engine) :
    ∀ {c : LoadState}, c ∈ takeThroughSuccess env out e criteria →
      (_try_nav_and_shot env out e c).ok = true →
      (takeThroughSuccess env out e criteria).getLast? = some c := by
  intro c hmem hok
  by_cases h1 : (_try_nav_and_shot env out e .networkidle).ok
  · have htts : takeThroughSuccess env out e criteria = [.networkidle] := by
      simp [criteria, takeThroughSuccess, h1]
    rw [htts] at hmem ⊢
    simp only [List.mem_singleton] at hmem
    subst hmem
    rfl
  · by_cases h2 : (_try_nav_and_shot env out e .load).ok
    · have htts : takeThroughSuccess env out e criteria = [.networkidle, .load] := by
        simp [criteria, takeThroughSuccess, h1, h2]
      rw [htts] at hmem ⊢
      cases c <;> simp_all
    · have htts : takeThroughSuccess env out e criteria =
          [.networkidle, .load, .domcontentloaded] := by
        simp [criteria, takeThroughSuccess, h1, h2]
      rw [htts] at hmem ⊢
      cases c <;> simp_all

/-- The canonical order is chromium's criteria then firefox's. -/
theorem canonicalOrder_eq :
    canonicalOrder =
      (criteria.map fun c => (Engine.chromium, c)) ++
      (criteria.map fun c => (Engine.firefox, c)) := rfl

/-- An engine's attempt list is always an in-order sublist of its criteria
in canonical order. -/
theorem re_attempts_sublist (env : Env) (out : String) (e : Engine) (le : Option String) :
    (attemptsOf (runEngine env out e le).1).Sublist (criteria.map fun c => (e, c)) := by
  rw [re_attempts]
  by_cases hs : setupOk env e = true
  · rw [if_pos hs]
    exact List.Sublist.map _ (tts_sublist env out e criteria)
  · rw [if_neg hs]
    exact List.nil_sublist _

/-- Extract engine and criterion from membership in an engine's attempt
list. -/
theorem re_attempts_mem (env : Env) (out : String) (e e' : Engine) (le : Option String)
    (c : LoadState) (h : (e', c) ∈ attemptsOf (runEngine env out e le).1) :
    e' = e ∧ setupOk env e = true ∧ c ∈ takeThroughSuccess env out e criteria := by
  rw [re_attempts] at h
  by_cases hs : setupOk env e = true
  · rw [if_pos hs] at h
    rcases List.mem_map.mp h with ⟨a, ha, heq⟩
    rcases Prod.mk.injEq _ _ _ _ ▸ heq with ⟨h1, h2⟩
    exact ⟨h1.symm, hs, h2 ▸ ha⟩
  · rw [if_neg hs] at h
    simp at h

/-- C1 body, engine-level: reinsert a criterion into the attempt list. -/
theorem re_attempts_mem_of_tts (env : Env) (out : String) (e : Engine) (le : Option String)
    (c : LoadState) (hs : setupOk env e = true)
    (hc : c ∈ takeThroughSuccess env out e criteria) :
    (e, c) ∈ attemptsOf (runEngine env out e le).1 := by
  rw [re_attempts, if_pos hs]
  exact List.mem_map.mpr ⟨c, hc, rfl⟩

/-- Membership in the criteria list, for any criterion. -/
theorem mem_criteria (c : LoadState) : c ∈ criteria := by
  cases c <;> simp [criteria]

/-- C1: the orchestrator attempts engine × criterion pairs in canonical
priority order (chromium before firefox, strict-to-lenient criteria within
an engine); a criterion is attempted only after every stricter criterion
failed on the same engine; and a successful attempt is the last attempt of
the whole run and makes the function return `True`. -/
theorem C1_priority_order (env : Env) (out : String) :
    (attemptsOf (save_webpage_as_image env out).events).Sublist canonicalOrder ∧
    (∀ (e : Engine) (c c' : LoadState),
      (e, c) ∈ attemptsOf (save_webpage_as_image env out).events →
      critRank c' < critRank c →
      (e, c') ∈ attemptsOf (save_webpage_as_image env out).events ∧
        (_try_nav_and_shot env out e c').ok = false) ∧
    (∀ (e : Engine) (c : LoadState),
      (e, c) ∈ attemptsOf (save_webpage_as_image env out).events →
      (_try_nav_and_shot env out e c).ok = true →
      (save_webpage_as_image env out).retval = true ∧
        (attemptsOf (save_webpage_as_image env out).events).getLast? = some (e, c)) := by
  rcases save_cases env out with ⟨hcs, hev, hrv, _⟩ | ⟨hcf, hev, hrv, _⟩
  · -- chromium succeeded: the run is chromium's engine body alone
    have hsetup : setupOk env .chromium = true := by
      rw [engineSucceeds, Bool.and_eq_true] at hcs
      exact hcs.1
    refine ⟨?_, ?_, ?_⟩
    · rw [hev, canonicalOrder_eq]
      exact (re_attempts_sublist env out .chromium none).trans
        (List.sublist_append_left _ _)
    · intro e c c' hmem hrank
      rw [hev] at hmem ⊢
      rcases re_attempts_mem env out _ e none c hmem with ⟨rfl, hs, hc⟩
      rcases tts_strict env out .chromium hc hrank with ⟨hc', hfail⟩
      exact ⟨re_attempts_mem_of_tts env out .chromium none c' hs hc', hfail⟩
    · intro e c hmem hok
      rw [hev] at hmem ⊢
      rcases re_attempts_mem env out _ e none c hmem with ⟨rfl, hs, hc⟩
      refine ⟨hrv, ?_⟩
      rw [re_attempts, if_pos hs, List.getLast?_map,
        tts_last_of_ok env out .chromium hc hok]
      rfl
  · -- chromium did not succeed: chromium's attempts then firefox's
    refine ⟨?_, ?_, ?_⟩
    · rw [hev, attemptsOf_append, canonicalOrder_eq]
      exact (re_attempts_sublist env out .chromium none).append
        (re_attempts_sublist env out .firefox _)
    · intro e c c' hmem hrank
      rw [hev, attemptsOf_append] at hmem ⊢
      rcases List.mem_append.mp hmem with h | h
      · rcases re_attempts_mem env out _ e none c h with ⟨rfl, hs, hc⟩
        rcases tts_strict env out .chromium hc hrank with ⟨hc', hfail⟩
        exact ⟨List.mem_append_left _
          (re_attempts_mem_of_tts env out .chromium none c' hs hc'), hfail⟩
      · rcases re_attempts_mem env out _ e _ c h with ⟨rfl, hs, hc⟩
        rcases tts_strict env out .firefox hc hrank with ⟨hc', hfail⟩
        exact ⟨List.mem_append_right _
          (re_attempts_mem_of_tts env out .firefox _ c' hs hc'), hfail⟩
    · intro e c hmem hok
      rw [hev, attemptsOf_append] at hmem ⊢
      rcases List.mem_append.mp hmem with h | h
      · -- impossible: chromium would have succeeded
        rcases re_attempts_mem env out _ e none c h with ⟨rfl, hs, hc⟩
        have : engineSucceeds env out .chromium = true := by
          rw [engineSucceeds, Bool.and_eq_true]
          refine ⟨hs, List.any_eq_true.mpr ⟨c, ?_, hok⟩⟩
          exact (tts_sublist env out .chromium criteria).subset hc
        rw [this] at hcf
        cases hcf
      · rcases re_attempts_mem env out _ e _ c h with ⟨rfl, hs, hc⟩
        have hfs : engineSucceeds env out .firefox = true := by
          rw [engineSucceeds, Bool.and_eq_true]
          refine ⟨hs, List.any_eq_true.mpr ⟨c, ?_, hok⟩⟩
          exact (tts_sublist env out .firefox criteria).subset hc
        refine ⟨by rw [hrv, hfs], ?_⟩
        rw [List.getLast?_append]
        have hlastF : (attemptsOf (runEngine env out .firefox
            (runEngine env out .chromium none).2.2).1).getLast? = some (.firefox, c) := by
          rw [re_attempts, if_pos hs, List.getLast?_map,
            tts_last_of_ok env out .firefox hc hok]
          rfl
        rw [hlastF]
        rfl

/-- C7: the attempt's outcome is a function of the navigation and
full-page-screenshot outcomes alone — an exception anywhere in the
stabilization block (height measurement, scroll loop, or post-scroll
pause) is swallowed and the attempt still proceeds to the capture, which
writes the primary artifact whenever it succeeds. -/
theorem C7_stabilization_never_fails_attempt (env : Env) (out : String)
    (e : Engine) (c : LoadState) :
    (_try_nav_and_shot env out e c).ok =
      ((env.goto e c).isOk && (env.screenshotFull e c).isOk) ∧
    List.count (Event.wrote out) (_try_nav_and_shot env out e c).events =
      (if ((env.goto e c).isOk && (env.screenshotFull e c).isOk) = true then 1 else 0) := by
  refine ⟨attempt_ok_eq env out e c, ?_⟩
  rw [count_wrote_attempt env out e c, attempt_ok_eq env out e c]

/-- Any attempted pair has a successfully set-up engine and a criterion
from the take-through-success list. -/
theorem save_attempts_mem (env : Env) (out : String) (e : Engine) (c : LoadState)
    (h : (e, c) ∈ attemptsOf (save_webpage_as_image env out).events) :
    setupOk env e = true ∧ c ∈ takeThroughSuccess env out e criteria := by
  rcases save_cases env out with ⟨_, hev, _, _⟩ | ⟨_, hev, _, _⟩
  · rw [hev] at h
    rcases re_attempts_mem env out _ e none c h with ⟨rfl, hs, hc⟩
    exact ⟨hs, hc⟩
  · rw [hev, attemptsOf_append] at h
    rcases List.mem_append.mp h with h | h
    · rcases re_attempts_mem env out _ e none c h with ⟨rfl, hs, hc⟩
      exact ⟨hs, hc⟩
    · rcases re_attempts_mem env out _ e _ c h with ⟨rfl, hs, hc⟩
      exact ⟨hs, hc⟩

/-- After a successful launch the trace holds the launch event, whatever
happens later. -/
theorem re_launched (env : Env) (out : String) (e : Engine) (le : Option String)
    (h : (env.launch e).isOk = true) :
    Event.launched e ∈ (runEngine env out e le).1 := by
  unfold runEngine
  cases hl : env.launch e with
  | err m => rw [hl] at h; simp [Res.isOk] at h
  | ok u =>
    cases u
    cases env.newContext e with
    | err m => simp
    | ok u =>
      cases u
      cases env.newPage e with
      | err m => simp
      | ok u =>
        cases u
        cases env.addInitScript e with
        | err m => simp
        | ok u => cases u; simp

/-- A failed criterion with a successor criterion keeps the successor in
the attempted list. -/
theorem tts_next (env : Env) (out : String) (e : Engine) {c c' : LoadState}
    (hc : c ∈ takeThroughSuccess env out e criteria)
    (hfail : (_try_nav_and_shot env out e c).ok = false)
    (hn : nextCrit c = some c') :
    c' ∈ takeThroughSuccess env out e criteria := by
  by_cases h1 : (_try_nav_and_shot env out e .networkidle).ok
  · have htts : takeThroughSuccess env out e criteria = [.networkidle] := by
      simp [criteria, takeThroughSuccess, h1]
    rw [htts] at hc ⊢
    simp only [List.mem_singleton] at hc
    subst hc
    rw [h1] at hfail
    cases hfail
  · by_cases h2 : (_try_nav_and_shot env out e .load).ok
    · have htts : takeThroughSuccess env out e criteria = [.networkidle, .load] := by
        simp [criteria, takeThroughSuccess, h1, h2]
      rw [htts] at hc ⊢
      cases c <;> simp_all [nextCrit]
    · have htts : takeThroughSuccess env out e criteria =
          [.networkidle, .load, .domcontentloaded] := by
        simp [criteria, takeThroughSuccess, h1, h2]
      rw [htts] at hc ⊢
      cases c <;> simp_all [nextCrit]

/-- C8: a failure in launch, context creation, or page creation keeps the
engine from attempting any criterion, while the next engine is still
launched; a failed navigation attempt is criterion-fatal only: the next
criterion of the same engine is still attempted. -/
theorem C8_engine_fatal_vs_criterion_fatal (env : Env) (out : String) :
    (∀ (e : Engine) (c : LoadState),
      ((env.launch e).isOk = false ∨ (env.newContext e).isOk = false ∨
        (env.newPage e).isOk = false) →
      (e, c) ∉ attemptsOf (save_webpage_as_image env out).events) ∧
    (setupOk env .chromium = false → (env.launch .firefox).isOk = true →
      Event.launched .firefox ∈ (save_webpage_as_image env out).events) ∧
    (∀ (e : Engine) (c c' : LoadState),
      (e, c) ∈ attemptsOf (save_webpage_as_image env out).events →
      (_try_nav_and_shot env out e c).ok = false →
      nextCrit c = some c' →
      (e, c') ∈ attemptsOf (save_webpage_as_image env out).events) := by
  refine ⟨?_, ?_, ?_⟩
  · intro e c hfail hmem
    have hsf : setupOk env e = false := by
      rcases hfail with h | h | h <;> simp [setupOk, h]
    have hs := (save_attempts_mem env out e c hmem).1
    rw [hs] at hsf
    cases hsf
  · intro hsc hlf
    have hcf : engineSucceeds env out .chromium = false := by
      rw [engineSucceeds, hsc]
      rfl
    rcases save_cases env out with ⟨hcs, _, _, _⟩ | ⟨_, hev, _, _⟩
    · rw [hcs] at hcf; cases hcf
    · rw [hev]
      exact List.mem_append_right _ (re_launched env out .firefox _ hlf)
  · intro e c c' hmem hfail hnext
    rcases save_cases env out with ⟨hcs, hev, _, _⟩ | ⟨hcf, hev, _, _⟩
    · rw [hev] at hmem ⊢
      rcases re_attempts_mem env out _ e none c hmem with ⟨rfl, hs, hc⟩
      exact re_attempts_mem_of_tts env out .chromium none c' hs
        (tts_next env out .chromium hc hfail hnext)
    · rw [hev, attemptsOf_append] at hmem ⊢
      rcases List.mem_append.mp hmem with h | h
      · rcases re_attempts_mem env out _ e none c h with ⟨rfl, hs, hc⟩
        exact List.mem_append_left _ (re_attempts_mem_of_tts env out .chromium none c' hs
          (tts_next env out .chromium hc hfail hnext))
      · rcases re_attempts_mem env out _ e _ c h with ⟨rfl, hs, hc⟩
        exact List.mem_append_right _ (re_attempts_mem_of_tts env out .firefox _ c' hs
          (tts_next env out .firefox hc hfail hnext))

/-- A path is on disk after a run exactly when some `wrote` event emitted
it. -/
theorem mem_filesWritten {p : String} {evs : List Event} :
    p ∈ filesWritten evs ↔ Event.wrote p ∈ evs := by
  rw [filesWritten, List.mem_filterMap]
  constructor
  · rintro ⟨ev, hev, hsome⟩
    cases ev <;> simp_all
  · intro h
    exact ⟨Event.wrote p, h, rfl⟩

/-- The whole run writes the primary path exactly once when it returns
`True`, and never otherwise. -/
theorem save_count (env : Env) (out : String) :
    List.count (Event.wrote out) (save_webpage_as_image env out).events =
      if (save_webpage_as_image env out).retval then 1 else 0 := by
  rcases save_cases env out with ⟨hcs, hev, hrv, _⟩ | ⟨hcf, hev, hrv, _⟩
  · rw [hev, hrv, re_count, hcs, if_pos rfl]
  · rw [hev, hrv, List.count_append, re_count, re_count, hcf]
    simp

/-- A run that returns `False` leaves a recorded exception in `last_err`. -/
theorem save_err (env : Env) (out : String)
    (h : (save_webpage_as_image env out).retval = false) :
    (save_webpage_as_image env out).last_err.isSome = true := by
  rcases save_cases env out with ⟨_, _, hrv, _⟩ | ⟨hcf, _, hrv, hle⟩
  · rw [hrv] at h; cases h
  · rw [hle]
    apply re_err
    rw [re_flag]
    rw [hrv] at h
    exact h

/-- Splitting a concatenation at an element absent from the left part
localizes the split in the right part. -/
theorem eq_append_cons_of_not_mem {α : Type} {x : α} :
    ∀ {L₁ L₂ pre post : List α}, x ∉ L₁ → L₁ ++ L₂ = pre ++ x :: post →
      ∃ pre₂, pre = L₁ ++ pre₂ ∧ L₂ = pre₂ ++ x :: post := by
  intro L₁
  induction L₁ with
  | nil =>
    intro L₂ pre post _ h
    exact ⟨pre, rfl, h⟩
  | cons a L₁ ih =>
    intro L₂ pre post hx h
    cases pre with
    | nil =>
      rw [List.nil_append, List.cons_append] at h
      injection h with h1 _
      exact absurd (h1 ▸ List.mem_cons_self a L₁) hx
    | cons p pre' =>
      rw [List.cons_append, List.cons_append] at h
      injection h with h1 h2
      subst h1
      rcases ih (fun hm => hx (List.mem_cons_of_mem _ hm)) h2 with ⟨pre₂, rfl, hh⟩
      exact ⟨pre₂, rfl, hh⟩

/-- The write of the primary artifact is the last event of a successful
attempt, and never occurs elsewhere in an attempt. -/
theorem wrote_not_mem_attempt_stab (env : Env) (out : String) (e : Engine) (c : LoadState) :
    Event.wrote out ∉
      ([.attempted e c, .gotoOk e c, .waited 1500] ++ stabEvents env e c : List Event) := by
  intro h
  rcases List.mem_append.mp h with h | h
  · simp at h
  · rcases mem_stabEvents h with ⟨y, h'⟩ | ⟨ms, h'⟩ <;> simp at h'

/-- Any occurrence of a primary-path write inside the criteria loop sits
directly after a successful navigation and a completed stabilization. -/
theorem rc_wrote_decomp (env : Env) (out : String) (e : Engine) :
    ∀ (cs : List LoadState) (le : Option String) (pre post : List Event),
      (runCriteria env out e cs le).1 = pre ++ Event.wrote out :: post →
      ∃ (c : LoadState) (rest : List Event),
        env.goto e c = Res.ok () ∧ env.screenshotFull e c = Res.ok () ∧
        pre = rest ++ ([.attempted e c, .gotoOk e c, .waited 1500] ++ stabEvents env e c) := by
  intro cs
  induction cs with
  | nil =>
    intro le pre post h
    exfalso
    have hm : Event.wrote out ∈ (runCriteria env out e [] le).1 := by
      rw [h]; simp
    simp only [runCriteria] at hm
    simp at hm
  | cons c rest ih =>
    intro le pre post h
    by_cases hok : (_try_nav_and_shot env out e c).ok
    · rcases attempt_shape env out e c with ⟨m, hg, ha⟩ | ⟨hg, m, hs, ha⟩ | ⟨hg, hs, ha⟩
      · rw [ha] at hok; cases hok
      · rw [ha] at hok; cases hok
      · simp only [runCriteria, hok, if_true] at h
        rw [ha] at h
        rw [List.append_assoc] at h
        have hP := wrote_not_mem_attempt_stab env out e c
        rcases eq_append_cons_of_not_mem hP h with ⟨pre₂, hpre, h2⟩
        cases pre₂ with
        | nil =>
          refine ⟨c, [], hg, hs, ?_⟩
          rw [hpre]
          simp
        | cons q pre₂' =>
          exfalso
          rw [List.cons_append] at h2
          injection h2 with h3 h4
          have h4' : [Event.closed e] = pre₂' ++ (Event.wrote out :: post) := by
            simpa using h4
          have hm : Event.wrote out ∈ ([Event.closed e] : List Event) := by
            rw [h4']; simp
          simp at hm
    · simp only [runCriteria, hok, if_false, Bool.false_eq_true] at h
      have hnot : Event.wrote out ∉
          (_try_nav_and_shot env out e c).events ++ failArtifactEvents env out e c := by
        intro hm
        rcases List.mem_append.mp hm with hm | hm
        · refine (List.count_eq_zero.mp ?_) hm
          rw [count_wrote_attempt env out e c]
          simp [hok]
        · exact (List.count_eq_zero.mp (count_wrote_failArtifacts env out e c)) hm
      rcases eq_append_cons_of_not_mem hnot h with ⟨pre₂, hpre, h2⟩
      rcases ih _ pre₂ post h2 with ⟨c', rest', hg, hs, hpre₂⟩
      refine ⟨c',
        (_try_nav_and_shot env out e c).events ++ failArtifactEvents env out e c ++ rest',
        hg, hs, ?_⟩
      rw [hpre, hpre₂]
      simp [List.append_assoc]

/-- Lift of `rc_wrote_decomp` to one engine's body. -/
theorem re_wrote_decomp (env : Env) (out : String) (e : Engine) (le : Option String)
    (pre post : List Event)
    (h : (runEngine env out e le).1 = pre ++ Event.wrote out :: post) :
    ∃ (c : LoadState) (rest : List Event),
      env.goto e c = Res.ok () ∧ env.screenshotFull e c = Res.ok () ∧
      pre = rest ++ ([.attempted e c, .gotoOk e c, .waited 1500] ++ stabEvents env e c) := by
  rcases runEngine_cases env out e le with ⟨_, _, _, _, hcount⟩ | ⟨_, hre⟩
  · exfalso
    have hm : Event.wrote out ∈ (runEngine env out e le).1 := by
      rw [h]; simp
    exact (List.count_eq_zero.mp hcount) hm
  · rw [hre] at h
    cases pre with
    | nil =>
      rw [List.nil_append] at h
      injection h with h1 _
      exact absurd h1 (by simp)
    | cons p pre' =>
      rw [List.cons_append] at h
      injection h with h1 h2
      rcases rc_wrote_decomp env out e criteria le pre' post h2 with ⟨c, rest, hg, hs, hpre⟩
      refine ⟨c, p :: rest, hg, hs, ?_⟩
      rw [hpre]
      rfl

/-- Lift of the write decomposition to the whole orchestrator: wherever
the primary artifact write sits in the trace, it is directly preceded by a
successful `goto` for some engine/criterion pair, the settle wait, and
that attempt's completed stabilization block. -/
theorem save_wrote_decomp (env : Env) (out : String) (pre post : List Event)
    (h : (save_webpage_as_image env out).events = pre ++ Event.wrote out :: post) :
    ∃ (e : Engine) (c : LoadState) (rest : List Event),
      env.goto e c = Res.ok () ∧ env.screenshotFull e c = Res.ok () ∧
      pre = rest ++ ([.attempted e c, .gotoOk e c, .waited 1500] ++ stabEvents env e c) := by
  rcases save_cases env out with ⟨_, hev, _, _⟩ | ⟨hcf, hev, _, _⟩
  · rw [hev] at h
    rcases re_wrote_decomp env out .chromium none pre post h with ⟨c, rest, hg, hs, hpre⟩
    exact ⟨.chromium, c, rest, hg, hs, hpre⟩
  · rw [hev] at h
    have hnotC : Event.wrote out ∉ (runEngine env out .chromium none).1 := by
      apply List.count_eq_zero.mp
      rw [re_count, hcf]
      rfl
    rcases eq_append_cons_of_not_mem hnotC h with ⟨pre₂, hpre, h2⟩
    rcases re_wrote_decomp env out .firefox _ pre₂ post h2 with ⟨c, rest, hg, hs, hpre₂⟩
    refine ⟨.firefox, c, (runEngine env out .chromium none).1 ++ rest, hg, hs, ?_⟩
    rw [hpre, hpre₂]
    simp [List.append_assoc]

/-- C4: the primary artifact is written at most once (exactly once on a
successful run, never on a failed one); any write of it in the trace
occurs only directly after a successful navigation under the current
criterion, the settle delay, and the completed stabilization step; and
the two failure-artifact operations target paths distinct from the
primary path. -/
theorem C4_primary_write_discipline (env : Env) (out : String) :
    List.count (Event.wrote out) (save_webpage_as_image env out).events =
      (if (save_webpage_as_image env out).retval then 1 else 0) ∧
    (∀ pre post,
      (save_webpage_as_image env out).events = pre ++ Event.wrote out :: post →
      ∃ (e : Engine) (c : LoadState) (rest : List Event),
        env.goto e c = Res.ok () ∧ env.screenshotFull e c = Res.ok () ∧
        pre = rest ++ ([.attempted e c, .gotoOk e c, .waited 1500] ++ stabEvents env e c)) ∧
    withSuffix out ".fail.png" ≠ out ∧ withSuffix out ".fail.html" ≠ out := by
  refine ⟨save_count env out, ?_, withSuffix_png_ne_self out, withSuffix_html_ne_self out⟩
  intro pre post h
  exact save_wrote_decomp env out pre post h

/-- Witness for C4 at a concrete successful run: the write in the trace
decomposes as the theorem states. -/
theorem C4_primary_write_discipline_witness :
    ∃ (e : Engine) (c : LoadState) (rest : List Event),
      envAllOk.goto e c = Res.ok () ∧ envAllOk.screenshotFull e c = Res.ok () ∧
      ([Event.launched .chromium, Event.attempted .chromium .networkidle,
        Event.gotoOk .chromium .networkidle, Event.waited 1500] : List Event) =
        rest ++ ([.attempted e c, .gotoOk e c, .waited 1500] ++ stabEvents envAllOk e c) := by
  have h := (C4_primary_write_discipline envAllOk "/mnt/storage/uploads/w.png").2.1
    [Event.launched .chromium, Event.attempted .chromium .networkidle,
      Event.gotoOk .chromium .networkidle, Event.waited 1500]
    [Event.closed .chromium] (by decide)
  exact h

/-- Witness for C1 at a concrete run where everything succeeds: the first
pair is attempted, succeeds, ends the attempt list, and yields `True`. -/
theorem C1_priority_order_witness :
    (save_webpage_as_image envAllOk "/mnt/storage/uploads/w.png").retval = true ∧
    (attemptsOf (save_webpage_as_image envAllOk "/mnt/storage/uploads/w.png").events).getLast?
      = some (.chromium, .networkidle) := by
  have h := (C1_priority_order envAllOk "/mnt/storage/uploads/w.png").2.2
    .chromium .networkidle (by decide) (by decide)
  exact h

/-- C3 (amended): when every attempted engine × criterion combination has
failed — equivalently, when the function returns `False` — no primary
artifact has been written to the output path, and the most recent raised
exception (criterion-level or engine-level) is retained in the logged
`last_err` local; the value returned to the caller is only the boolean. -/
theorem C3_exhausted_failure (env : Env) (out : String)
    (h : (save_webpage_as_image env out).retval = false) :
    out ∉ filesWritten (save_webpage_as_image env out).events ∧
    (save_webpage_as_image env out).last_err.isSome = true := by
  refine ⟨?_, save_err env out h⟩
  intro hmem
  have hw := mem_filesWritten.mp hmem
  have hc : List.count (Event.wrote out) (save_webpage_as_image env out).events = 0 := by
    rw [save_count, h]
    rfl
  exact (List.count_eq_zero.mp hc) hw

/-- Witness for C3 on a concrete all-failing run. -/
theorem C3_exhausted_failure_witness :
    "/mnt/storage/uploads/w.png" ∉
      filesWritten (save_webpage_as_image envAllFail "/mnt/storage/uploads/w.png").events ∧
    (save_webpage_as_image envAllFail "/mnt/storage/uploads/w.png").last_err.isSome = true :=
  C3_exhausted_failure envAllFail "/mnt/storage/uploads/w.png" (by decide)

/-- Counterexample to C3 as stated: in a concrete all-failing run the
final error `E_FINAL` is retained only in the logged `last_err`; the
function's return value is the bare boolean `False`, and the page the
caller renders carries the fixed failure text without the error message. -/
theorem C3_error_not_surfaced_counterexample :
    (save_webpage_as_image envAllFail
      "/mnt/storage/uploads/screenr_20261012030405.png").retval = false ∧
    (save_webpage_as_image envAllFail
      "/mnt/storage/uploads/screenr_20261012030405.png").last_err = some "E_FINAL" ∧
    (archive envAllFail [] ⟨2026, 10, 12, 3, 4, 5⟩ "http://example.com").page.message =
      some "Failed to archive http://example.com." := by
  decide

/-- The projection `scrolledOf` distributes over concatenation. -/
theorem scrolledOf_append (l₁ l₂ : List Event) :
    scrolledOf (l₁ ++ l₂) = scrolledOf l₁ ++ scrolledOf l₂ :=
  List.filterMap_append l₁ l₂ _

/-- The scroll block's scroll positions are exactly the loop's positions. -/
theorem scrolledOf_scrollBlock (ℓ : List Nat) :
    scrolledOf (((ℓ.map fun y => [Event.waited 100, Event.scrolled y]).flatten)
      ++ [Event.waited 500]) = ℓ := by
  induction ℓ with
  | nil => rfl
  | cons y ys ih =>
    rw [List.map_cons, List.flatten_cons, List.append_assoc]
    rw [scrolledOf_append]
    rw [ih]
    rfl

/-- Shape of the stabilization block when the measured height exceeds the
threshold and the scroll script runs: one 100 ms wait before each scroll
step, then the 500 ms pause. -/
theorem stabEvents_tall (env : Env) (e : Engine) (c : LoadState) (height : Nat)
    (hh : env.evalHeight e c = .ok height) (h3 : 3000 < height)
    (hsc : env.evalScroll e c = .ok ()) :
    stabEvents env e c =
      ((scrollLoop 0 height).map fun y => [Event.waited 100, Event.scrolled y]).flatten
        ++ [Event.waited 500] := by
  simp only [stabEvents, hh]
  rw [if_pos h3]
  simp only [hsc]

/-- Shape of the stabilization block when the measured height does not
exceed the threshold: nothing happens. -/
theorem stabEvents_short (env : Env) (e : Engine) (c : LoadState) (height : Nat)
    (hh : env.evalHeight e c = .ok height) (h3 : height ≤ 3000) :
    stabEvents env e c = [] := by
  simp only [stabEvents, hh]
  rw [if_neg (by omega)]

/-- The last scroll position reaches the document height, overshoots it by
less than one step, and is a multiple of the step size (counted from the
start position). -/
theorem scrollLoop_last (height : Nat) :
    ∀ y, y < height →
      ∃ L, (scrollLoop y height).getLast? = some L ∧ height ≤ L ∧
        L < height + 1200 ∧ (L - y) % 1200 = 0 := by
  have main : ∀ n y, height - y ≤ n → y < height →
      ∃ L, (scrollLoop y height).getLast? = some L ∧ height ≤ L ∧
        L < height + 1200 ∧ (L - y) % 1200 = 0 := by
    intro n
    induction n with
    | zero => intro y hle hlt; omega
    | succ n ih =>
      intro y hle hlt
      rw [scrollLoop_eq]
      by_cases hstop : height ≤ y + 1200
      · rw [if_pos hstop]
        exact ⟨y + 1200, rfl, hstop, by omega, by omega⟩
      · rw [if_neg hstop]
        have hlt' : y + 1200 < height := by omega
        rcases ih (y + 1200) (by omega) hlt' with ⟨L, hL, h1, h2, h3⟩
        refine ⟨L, ?_, h1, h2, by omega⟩
        have hne : scrollLoop (y + 1200) height ≠ [] := by
          intro hnil
          rw [hnil] at hL
          cases hL
        rw [List.getLast?_cons, hL]
        rfl
  intro y hlt
  exact main (height - y) y (Nat.le_refl _) hlt

/-- C5 (amended): after a successful navigation, if the measured height is
at most the 3000 px threshold no scroll is issued; if it exceeds the
threshold and the scroll script runs, the positions advance in 1200 px
steps, each step preceded by a 100 ms wait, a 500 ms pause follows the
loop, and the final position is the first multiple of 1200 that reaches
the document height — at least the height but up to 1199 px beyond it,
equal only when the height divides evenly. -/
theorem C5_scroll_threshold (env : Env) (out : String) (e : Engine) (c : LoadState)
    (height : Nat) (hg : env.goto e c = Res.ok ())
    (hh : env.evalHeight e c = Res.ok height) :
    (height ≤ 3000 → scrolledOf (_try_nav_and_shot env out e c).events = []) ∧
    (3000 < height → env.evalScroll e c = Res.ok () →
      scrolledOf (_try_nav_and_shot env out e c).events = scrollLoop 0 height ∧
      stabEvents env e c =
        ((scrollLoop 0 height).map fun y => [Event.waited 100, Event.scrolled y]).flatten
          ++ [Event.waited 500] ∧
      ∃ L, (scrollLoop 0 height).getLast? = some L ∧ height ≤ L ∧
        L < height + 1200 ∧ L % 1200 = 0) := by
  have hsc_ev : ∀ hstab : List Event, stabEvents env e c = hstab →
      scrolledOf (_try_nav_and_shot env out e c).events = scrolledOf hstab := by
    intro hstab heq
    rcases attempt_shape env out e c with ⟨m, hg', _⟩ | ⟨_, m, _, ha⟩ | ⟨_, _, ha⟩
    · rw [hg] at hg'; cases hg'
    · rw [ha]
      show scrolledOf ([.attempted e c, .gotoOk e c, .waited 1500] ++ stabEvents env e c) = _
      rw [scrolledOf_append, heq]
      show ([] : List Nat) ++ scrolledOf hstab = scrolledOf hstab
      simp
    · rw [ha]
      show scrolledOf (([.attempted e c, .gotoOk e c, .waited 1500] ++ stabEvents env e c)
          ++ [.wrote out]) = _
      rw [scrolledOf_append, scrolledOf_append, heq]
      show (([] : List Nat) ++ scrolledOf hstab) ++ ([] : List Nat) = scrolledOf hstab
      simp
  constructor
  · intro h3
    rw [hsc_ev [] (stabEvents_short env e c height hh h3)]
    rfl
  · intro h3 hscr
    have hstab := stabEvents_tall env e c height hh h3 hscr
    refine ⟨?_, hstab, ?_⟩
    · rw [hsc_ev _ hstab, scrolledOf_scrollBlock]
    · rcases scrollLoop_last height 0 (by omega) with ⟨L, hL, h1, h2, hmod⟩
      exact ⟨L, hL, h1, h2, by omega⟩

/-- Counterexample to C5 as stated: for a 3100 px document the scroll
loop stops at 3600 — the first multiple of 1200 past the height — so the
final issued scroll position is not equal to the document's scroll
height. -/
theorem C5_final_position_counterexample :
    envTall.evalHeight .chromium .networkidle = Res.ok 3100 ∧
    scrolledOf (_try_nav_and_shot envTall "/mnt/storage/uploads/w.png"
      .chromium .networkidle).events = [1200, 2400, 3600] ∧
    (scrolledOf (_try_nav_and_shot envTall "/mnt/storage/uploads/w.png"
      .chromium .networkidle).events).getLast? = some 3600 ∧
    (3600 : Nat) ≠ 3100 := by
  decide

/-- Witness for C5 at concrete tall and short documents. -/
theorem C5_scroll_threshold_witness :
    scrolledOf (_try_nav_and_shot envTall "/mnt/storage/uploads/w.png"
      .chromium .networkidle).events = scrollLoop 0 3100 ∧
    scrolledOf (_try_nav_and_shot envAllOk "/mnt/storage/uploads/w.png"
      .chromium .networkidle).events = [] := by
  constructor
  · exact ((C5_scroll_threshold envTall "/mnt/storage/uploads/w.png" .chromium .networkidle
      3100 (by decide) (by decide)).2 (by decide) (by decide)).1
  · exact (C5_scroll_threshold envAllOk "/mnt/storage/uploads/w.png" .chromium .networkidle
      1000 (by decide) (by decide)).1 (by decide)

/-- Replacing the three artifact operations never changes an attempt. -/
theorem attempt_artifact_irrelevant (env : Env)
    (sv : Engine → LoadState → Res Unit) (ct : Engine → LoadState → Res String)
    (wf : Engine → LoadState → Res Unit) (out : String) (e : Engine) (c : LoadState) :
    _try_nav_and_shot (withArtifacts env sv ct wf) out e c =
      _try_nav_and_shot env out e c := rfl

/-- Replacing the three artifact operations never changes the criteria
loop's returned flag or its recorded `last_err`. -/
theorem rc_artifact_irrelevant (env : Env)
    (sv : Engine → LoadState → Res Unit) (ct : Engine → LoadState → Res String)
    (wf : Engine → LoadState → Res Unit) (out : String) (e : Engine) :
    ∀ (cs : List LoadState) (le : Option String),
      (runCriteria (withArtifacts env sv ct wf) out e cs le).2.1 =
        (runCriteria env out e cs le).2.1 ∧
      (runCriteria (withArtifacts env sv ct wf) out e cs le).2.2 =
        (runCriteria env out e cs le).2.2 := by
  intro cs
  induction cs with
  | nil => intro le; exact ⟨rfl, rfl⟩
  | cons c rest ih =>
    intro le
    by_cases hok : (_try_nav_and_shot env out e c).ok
    · simp [runCriteria, attempt_artifact_irrelevant, hok]
    · simp only [runCriteria, attempt_artifact_irrelevant, hok, if_false, Bool.false_eq_true]
      exact ih _

/-- Replacing the three artifact operations never changes the engine
body's returned flag or its recorded `last_err`. -/
theorem re_artifact_irrelevant (env : Env)
    (sv : Engine → LoadState → Res Unit) (ct : Engine → LoadState → Res String)
    (wf : Engine → LoadState → Res Unit) (out : String) (e : Engine) (le : Option String) :
    (runEngine (withArtifacts env sv ct wf) out e le).2.1 =
      (runEngine env out e le).2.1 ∧
    (runEngine (withArtifacts env sv ct wf) out e le).2.2 =
      (runEngine env out e le).2.2 := by
  have h1 : (withArtifacts env sv ct wf).launch = env.launch := rfl
  have h2 : (withArtifacts env sv ct wf).newContext = env.newContext := rfl
  have h3 : (withArtifacts env sv ct wf).newPage = env.newPage := rfl
  have h4 : (withArtifacts env sv ct wf).addInitScript = env.addInitScript := rfl
  unfold runEngine
  rw [h1, h2, h3, h4]
  cases env.launch e with
  | err m => exact ⟨rfl, rfl⟩
  | ok u =>
    cases u
    cases env.newContext e with
    | err m => exact ⟨rfl, rfl⟩
    | ok u =>
      cases u
      cases env.newPage e with
      | err m => exact ⟨rfl, rfl⟩
      | ok u =>
        cases u
        cases env.addInitScript e with
        | err m => exact ⟨rfl, rfl⟩
        | ok u =>
          cases u
          exact rc_artifact_irrelevant env sv ct wf out e criteria le

/-- Replacing the three artifact operations never changes the returned
boolean, the recorded `last_err`, or the attempted pairs of the whole
orchestrator run. -/
theorem save_artifact_irrelevant (env : Env)
    (sv : Engine → LoadState → Res Unit) (ct : Engine → LoadState → Res String)
    (wf : Engine → LoadState → Res Unit) (out : String) :
    (save_webpage_as_image (withArtifacts env sv ct wf) out).retval =
      (save_webpage_as_image env out).retval ∧
    (save_webpage_as_image (withArtifacts env sv ct wf) out).last_err =
      (save_webpage_as_image env out).last_err ∧
    attemptsOf (save_webpage_as_image (withArtifacts env sv ct wf) out).events =
      attemptsOf (save_webpage_as_image env out).events := by
  have hes : ∀ e, engineSucceeds (withArtifacts env sv ct wf) out e =
      engineSucceeds env out e := fun _ => rfl
  rcases save_cases env out with ⟨hcs, hev, hrv, hle⟩ | ⟨hcf, hev, hrv, hle⟩
  · rcases save_cases (withArtifacts env sv ct wf) out with
      ⟨hcs', hev', hrv', hle'⟩ | ⟨hcf', _, _, _⟩
    · refine ⟨by rw [hrv', hrv], ?_, ?_⟩
      · rw [hle', hle]
        exact (re_artifact_irrelevant env sv ct wf out .chromium none).2
      · rw [hev', hev]
        simp only [re_attempts]
        rfl
    · rw [hes, hcs] at hcf'
      cases hcf'
  · rcases save_cases (withArtifacts env sv ct wf) out with
      ⟨hcs', _, _, _⟩ | ⟨hcf', hev', hrv', hle'⟩
    · rw [hes, hcf] at hcs'
      cases hcs'
    · refine ⟨?_, ?_, ?_⟩
      · rw [hrv', hrv, hes]
      · rw [hle', hle]
        have hleC := (re_artifact_irrelevant env sv ct wf out .chromium none).2
        rw [hleC]
        exact (re_artifact_irrelevant env sv ct wf out .firefox _).2
      · rw [hev', hev, attemptsOf_append, attemptsOf_append]
        simp only [re_attempts]
        rfl

/-- Membership of each diagnostic write in the failure-artifact block:
the image write happens exactly when the viewport screenshot succeeded,
and the markup write exactly when the content read and the file write
succeeded — with no dependence on the image outcome. -/
theorem failArtifact_membership (env : Env) (out : String) (e : Engine) (c : LoadState) :
    (Event.wrote (withSuffix out ".fail.png") ∈ failArtifactEvents env out e c ↔
      (env.screenshotViewport e c).isOk = true) ∧
    (Event.wrote (withSuffix out ".fail.html") ∈ failArtifactEvents env out e c ↔
      (env.content e c).isOk = true ∧ (env.writeFailHtml e c).isOk = true) := by
  have hne := withSuffix_png_ne_html out
  unfold failArtifactEvents
  cases env.screenshotViewport e c <;>
    cases env.content e c <;>
    cases env.writeFailHtml e c <;>
    simp [Res.isOk] <;>
    first
      | (intro h; exact hne h.symm)
      | (intro h; exact hne h)

/-- The hints the failure page shows name only artifact files that are on
disk after the run. -/
theorem archive_hints_mem (env : Env) (fs0 : List String) (dt : DateTime)
    (u hint : String) (hmem : hint ∈ (archive env fs0 dt u).hints) :
    (hint = "fail PNG at " ++
        withSuffix (UPLOAD_DIRECTORY ++ "/" ++ archiveFilename dt) ".fail.png" ∧
      withSuffix (UPLOAD_DIRECTORY ++ "/" ++ archiveFilename dt) ".fail.png" ∈
        fs0 ++ filesWritten
          (save_webpage_as_image env (UPLOAD_DIRECTORY ++ "/" ++ archiveFilename dt)).events) ∨
    (hint = "fail HTML at " ++
        withSuffix (UPLOAD_DIRECTORY ++ "/" ++ archiveFilename dt) ".fail.html" ∧
      withSuffix (UPLOAD_DIRECTORY ++ "/" ++ archiveFilename dt) ".fail.html" ∈
        fs0 ++ filesWritten
          (save_webpage_as_image env (UPLOAD_DIRECTORY ++ "/" ++ archiveFilename dt)).events) := by
  simp only [archive] at hmem
  by_cases hval : (startswith (strip u) "http://" || startswith (strip u) "https://") = true
  · rw [hval] at hmem
    simp only [Bool.not_true, Bool.false_eq_true, if_false] at hmem
    by_cases hok : ((save_webpage_as_image env
        (UPLOAD_DIRECTORY ++ "/" ++ archiveFilename dt)).retval &&
        decide ((UPLOAD_DIRECTORY ++ "/" ++ archiveFilename dt) ∈
          fs0 ++ filesWritten (save_webpage_as_image env
            (UPLOAD_DIRECTORY ++ "/" ++ archiveFilename dt)).events)) = true
    · rw [hok] at hmem
      simp at hmem
    · have hok' : ((save_webpage_as_image env
          (UPLOAD_DIRECTORY ++ "/" ++ archiveFilename dt)).retval &&
          decide ((UPLOAD_DIRECTORY ++ "/" ++ archiveFilename dt) ∈
            fs0 ++ filesWritten (save_webpage_as_image env
              (UPLOAD_DIRECTORY ++ "/" ++ archiveFilename dt)).events)) = false := by
        simpa using hok
      rw [hok'] at hmem
      simp only [Bool.false_eq_true, if_false] at hmem
      rw [List.mem_append] at hmem
      rcases hmem with h | h
      · by_cases hp : withSuffix (UPLOAD_DIRECTORY ++ "/" ++ archiveFilename dt) ".fail.png" ∈
            fs0 ++ filesWritten (save_webpage_as_image env
              (UPLOAD_DIRECTORY ++ "/" ++ archiveFilename dt)).events
        · rw [if_pos hp] at h
          simp only [List.mem_singleton] at h
          exact Or.inl ⟨h, hp⟩
        · rw [if_neg hp] at h
          simp at h
      · by_cases hp : withSuffix (UPLOAD_DIRECTORY ++ "/" ++ archiveFilename dt) ".fail.html" ∈
            fs0 ++ filesWritten (save_webpage_as_image env
              (UPLOAD_DIRECTORY ++ "/" ++ archiveFilename dt)).events
        · rw [if_pos hp] at h
          simp only [List.mem_singleton] at h
          exact Or.inr ⟨h, hp⟩
        · rw [if_neg hp] at h
          simp at h
  · have hval' : (startswith (strip u) "http://" || startswith (strip u) "https://") = false := by
      simpa using hval
    rw [hval'] at hmem
    simp at hmem

/-- C6: the two failure-artifact operations are independent — the markup
capture happens whenever content read and write succeed, regardless of the
image capture's outcome — neither artifact error influences the
orchestrator's returned boolean, logged error, or attempt sequence, and a
failure page names an artifact path only when that file is on disk. -/
theorem C6_failure_artifacts_best_effort (env : Env) (out : String) :
    (∀ (sv : Engine → LoadState → Res Unit) (ct : Engine → LoadState → Res String)
        (wf : Engine → LoadState → Res Unit),
      (save_webpage_as_image (withArtifacts env sv ct wf) out).retval =
        (save_webpage_as_image env out).retval ∧
      (save_webpage_as_image (withArtifacts env sv ct wf) out).last_err =
        (save_webpage_as_image env out).last_err ∧
      attemptsOf (save_webpage_as_image (withArtifacts env sv ct wf) out).events =
        attemptsOf (save_webpage_as_image env out).events) ∧
    (∀ (e : Engine) (c : LoadState),
      (Event.wrote (withSuffix out ".fail.png") ∈ failArtifactEvents env out e c ↔
        (env.screenshotViewport e c).isOk = true) ∧
      (Event.wrote (withSuffix out ".fail.html") ∈ failArtifactEvents env out e c ↔
        (env.content e c).isOk = true ∧ (env.writeFailHtml e c).isOk = true)) ∧
    (∀ (fs0 : List String) (dt : DateTime) (u hint : String),
      hint ∈ (archive env fs0 dt u).hints →
      (hint = "fail PNG at " ++
          withSuffix (UPLOAD_DIRECTORY ++ "/" ++ archiveFilename dt) ".fail.png" ∧
        withSuffix (UPLOAD_DIRECTORY ++ "/" ++ archiveFilename dt) ".fail.png" ∈
          fs0 ++ filesWritten (save_webpage_as_image env
            (UPLOAD_DIRECTORY ++ "/" ++ archiveFilename dt)).events) ∨
      (hint = "fail HTML at " ++
          withSuffix (UPLOAD_DIRECTORY ++ "/" ++ archiveFilename dt) ".fail.html" ∧
        withSuffix (UPLOAD_DIRECTORY ++ "/" ++ archiveFilename dt) ".fail.html" ∈
          fs0 ++ filesWritten (save_webpage_as_image env
            (UPLOAD_DIRECTORY ++ "/" ++ archiveFilename dt)).events)) :=
  ⟨fun sv ct wf => save_artifact_irrelevant env sv ct wf out,
   fun e c => failArtifact_membership env out e c,
   fun fs0 dt u hint h => archive_hints_mem env fs0 dt u hint h⟩

/-- Witness for C8: engine-fatal setup failure attempts no criterion and
moves to the next engine; a criterion-fatal attempt failure moves to the
next criterion. -/
theorem C8_engine_fatal_vs_criterion_fatal_witness :
    ((.chromium, .networkidle) ∉
      attemptsOf (save_webpage_as_image envLeak "/mnt/storage/uploads/w.png").events) ∧
    (Event.launched .firefox ∈
      (save_webpage_as_image envSetupFail "/mnt/storage/uploads/w.png").events) ∧
    ((.chromium, .load) ∈
      attemptsOf (save_webpage_as_image envFailArt "/mnt/storage/uploads/w.png").events) := by
  refine ⟨?_, ?_, ?_⟩
  · exact (C8_engine_fatal_vs_criterion_fatal envLeak "/mnt/storage/uploads/w.png").1
      .chromium .networkidle (Or.inr (Or.inl (by decide)))
  · exact (C8_engine_fatal_vs_criterion_fatal envSetupFail "/mnt/storage/uploads/w.png").2.1
      (by decide) (by decide)
  · exact (C8_engine_fatal_vs_criterion_fatal envFailArt "/mnt/storage/uploads/w.png").2.2
      .chromium .networkidle .load (by decide) (by decide) (by decide)

/-- Witness for C6 at a concrete failing run whose failure artifacts were
both written: the PNG hint shown on the page names a file that is on
disk. -/
theorem C6_failure_artifacts_witness :
    ("fail PNG at /mnt/storage/uploads/screenr_20261012030405.fail.png" =
        "fail PNG at " ++
          withSuffix (UPLOAD_DIRECTORY ++ "/" ++ archiveFilename ⟨2026, 10, 12, 3, 4, 5⟩)
            ".fail.png" ∧
      withSuffix (UPLOAD_DIRECTORY ++ "/" ++ archiveFilename ⟨2026, 10, 12, 3, 4, 5⟩)
          ".fail.png" ∈
        [] ++ filesWritten (save_webpage_as_image envFailArt
          (UPLOAD_DIRECTORY ++ "/" ++ archiveFilename ⟨2026, 10, 12, 3, 4, 5⟩)).events) ∨
    ("fail PNG at /mnt/storage/uploads/screenr_20261012030405.fail.png" =
        "fail HTML at " ++
          withSuffix (UPLOAD_DIRECTORY ++ "/" ++ archiveFilename ⟨2026, 10, 12, 3, 4, 5⟩)
            ".fail.html" ∧
      withSuffix (UPLOAD_DIRECTORY ++ "/" ++ archiveFilename ⟨2026, 10, 12, 3, 4, 5⟩)
          ".fail.html" ∈
        [] ++ filesWritten (save_webpage_as_image envFailArt
          (UPLOAD_DIRECTORY ++ "/" ++ archiveFilename ⟨2026, 10, 12, 3, 4, 5⟩)).events) :=
  (C6_failure_artifacts_best_effort envFailArt
      (UPLOAD_DIRECTORY ++ "/" ++ archiveFilename ⟨2026, 10, 12, 3, 4, 5⟩)).2.2
    [] ⟨2026, 10, 12, 3, 4, 5⟩ "http://example.com"
    "fail PNG at /mnt/storage/uploads/screenr_20261012030405.fail.png" (by decide)

/-- C10: a stripped form value that does not start with `http://` or
`https://` is rejected with the fixed error page before any engine work —
no event happens, so nothing is launched and nothing is written; and the
success page is rendered only when the capture returned `True` and the
primary artifact path is on disk. -/
theorem C10_archive_validation_gate (env : Env) (fs0 : List String) (dt : DateTime)
    (u : String) :
    ((startswith (strip u) "http://" || startswith (strip u) "https://") = false →
      (archive env fs0 dt u).page.message = some "Provide a valid http(s) URL." ∧
      (archive env fs0 dt u).page.message_type = some "error" ∧
      (archive env fs0 dt u).events = []) ∧
    ((archive env fs0 dt u).page.message_type = some "success" →
      (save_webpage_as_image env (UPLOAD_DIRECTORY ++ "/" ++ archiveFilename dt)).retval
        = true ∧
      (UPLOAD_DIRECTORY ++ "/" ++ archiveFilename dt) ∈
        fs0 ++ filesWritten (save_webpage_as_image env
          (UPLOAD_DIRECTORY ++ "/" ++ archiveFilename dt)).events) := by
  constructor
  · intro hval
    refine ⟨?_, ?_, ?_⟩ <;> simp [archive, hval]
  · intro hsucc
    simp only [archive] at hsucc
    by_cases hval : (startswith (strip u) "http://" || startswith (strip u) "https://") = true
    · rw [hval] at hsucc
      simp only [Bool.not_true, Bool.false_eq_true, if_false] at hsucc
      by_cases hok : ((save_webpage_as_image env
          (UPLOAD_DIRECTORY ++ "/" ++ archiveFilename dt)).retval &&
          decide ((UPLOAD_DIRECTORY ++ "/" ++ archiveFilename dt) ∈
            fs0 ++ filesWritten (save_webpage_as_image env
              (UPLOAD_DIRECTORY ++ "/" ++ archiveFilename dt)).events)) = true
      · rcases (Bool.and_eq_true _ _ ▸ hok) with ⟨hr, hm⟩
        exact ⟨hr, of_decide_eq_true hm⟩
      · have hok' : ((save_webpage_as_image env
            (UPLOAD_DIRECTORY ++ "/" ++ archiveFilename dt)).retval &&
            decide ((UPLOAD_DIRECTORY ++ "/" ++ archiveFilename dt) ∈
              fs0 ++ filesWritten (save_webpage_as_image env
                (UPLOAD_DIRECTORY ++ "/" ++ archiveFilename dt)).events)) = false := by
          simpa using hok
        rw [hok'] at hsucc
        simp at hsucc
    · have hval' : (startswith (strip u) "http://" || startswith (strip u) "https://")
          = false := by simpa using hval
      rw [hval'] at hsucc
      simp at hsucc

/-- Witness for C10: the empty form value is rejected with no events, and
a concrete successful capture renders the success page backed by a real
file. -/
theorem C10_archive_validation_gate_witness :
    ((archive envAllOk [] ⟨2026, 10, 12, 3, 4, 5⟩ "").page.message =
        some "Provide a valid http(s) URL." ∧
      (archive envAllOk [] ⟨2026, 10, 12, 3, 4, 5⟩ "").page.message_type = some "error" ∧
      (archive envAllOk [] ⟨2026, 10, 12, 3, 4, 5⟩ "").events = []) ∧
    ((save_webpage_as_image envAllOk
        (UPLOAD_DIRECTORY ++ "/" ++ archiveFilename ⟨2026, 10, 12, 3, 4, 5⟩)).retval
        = true ∧
      (UPLOAD_DIRECTORY ++ "/" ++ archiveFilename ⟨2026, 10, 12, 3, 4, 5⟩) ∈
        [] ++ filesWritten (save_webpage_as_image envAllOk
          (UPLOAD_DIRECTORY ++ "/" ++ archiveFilename ⟨2026, 10, 12, 3, 4, 5⟩)).events) :=
  ⟨(C10_archive_validation_gate envAllOk [] ⟨2026, 10, 12, 3, 4, 5⟩ "").1 (by decide),
   (C10_archive_validation_gate envAllOk [] ⟨2026, 10, 12, 3, 4, 5⟩ "http://example.com").2
     (by decide)⟩

/-- A digit character determines its argument's last decimal digit. -/
theorem digitChar_inj {a b : Nat} (h : digitChar a = digitChar b) : a % 10 = b % 10 := by
  have hfin : ∀ i j : Fin 10, digitChar i.val = digitChar j.val → i = j := by decide
  have ha : digitChar a = digitChar (a % 10) := by
    unfold digitChar
    congr 1
    omega
  have hb : digitChar b = digitChar (b % 10) := by
    unfold digitChar
    congr 1
    omega
  have hij := hfin ⟨a % 10, by omega⟩ ⟨b % 10, by omega⟩ (by rw [← ha, ← hb]; exact h)
  simpa using congrArg Fin.val hij

/-- The renderer `pad2` is injective on values below 100. -/
theorem pad2_inj {a b : Nat} (ha : a < 100) (hb : b < 100) (h : pad2 a = pad2 b) :
    a = b := by
  have hd := congrArg String.data h
  simp only [pad2] at hd
  injection hd with h1 hd2
  injection hd2 with h2 _
  have e1 := digitChar_inj h1
  have e2 := digitChar_inj h2
  omega

/-- The renderer `pad4` is injective on values below 10000. -/
theorem pad4_inj {a b : Nat} (ha : a < 10000) (hb : b < 10000) (h : pad4 a = pad4 b) :
    a = b := by
  have hd := congrArg String.data h
  simp only [pad4] at hd
  injection hd with h1 hd2
  injection hd2 with h2 hd3
  injection hd3 with h3 hd4
  injection hd4 with h4 _
  have e1 := digitChar_inj h1
  have e2 := digitChar_inj h2
  have e3 := digitChar_inj h3
  have e4 := digitChar_inj h4
  omega

/-- Digit characters pass the `secure_filename` filter. -/
theorem digitChar_allowed (n : Nat) : isAllowedFilenameChar (digitChar n) = true := by
  have hfin : ∀ i : Fin 10, isAllowedFilenameChar (digitChar i.val) = true := by decide
  have ha : digitChar n = digitChar (n % 10) := by
    unfold digitChar
    congr 1
    omega
  rw [ha]
  exact hfin ⟨n % 10, by omega⟩

/-- On the names this route generates, `secure_filename` is the
identity: every character is alphanumeric, a dot, or an underscore. -/
theorem secure_filename_screenr (dt : DateTime) :
    secure_filename ("screenr_" ++ formatTimestamp dt ++ ".png") =
      "screenr_" ++ formatTimestamp dt ++ ".png" := by
  unfold secure_filename
  apply String.ext
  show List.filter _ _ = _
  rw [List.filter_eq_self]
  intro a ha
  rw [String.data_append, String.data_append] at ha
  rcases List.mem_append.mp ha with h | h
  · rcases List.mem_append.mp h with h | h
    · have hall : ∀ x ∈ "screenr_".data, isAllowedFilenameChar x = true := by decide
      exact hall a h
    · have hp2 : ∀ n, ∀ x ∈ (pad2 n).data, isAllowedFilenameChar x = true := by
        intro n x hx
        simp only [pad2, List.mem_cons, List.not_mem_nil, or_false] at hx
        rcases hx with rfl | rfl <;> exact digitChar_allowed _
      have hp4 : ∀ n, ∀ x ∈ (pad4 n).data, isAllowedFilenameChar x = true := by
        intro n x hx
        simp only [pad4, List.mem_cons, List.not_mem_nil, or_false] at hx
        rcases hx with rfl | rfl | rfl | rfl <;> exact digitChar_allowed _
      simp only [formatTimestamp, String.data_append, List.mem_append] at h
      rcases h with ((((h | h) | h) | h) | h) | h
      exacts [hp4 _ a h, hp2 _ a h, hp2 _ a h, hp2 _ a h, hp2 _ a h, hp2 _ a h]
  · have hall : ∀ x ∈ ".png".data, isAllowedFilenameChar x = true := by decide
    exact hall a h

/-- C9 (amended): the output filename is derived from the request's
arrival timestamp alone, rendered at one-second granularity; two requests
handled at distinct timestamps (with in-range calendar fields) receive
distinct filenames.  Requests handled within the same second share one
filename. -/
theorem C9_filename_uniqueness_per_second (dt₁ dt₂ : DateTime)
    (hy₁ : dt₁.year < 10000) (hmo₁ : dt₁.month < 100) (hd₁ : dt₁.day < 100)
    (hh₁ : dt₁.hour < 100) (hmi₁ : dt₁.minute < 100) (hs₁ : dt₁.second < 100)
    (hy₂ : dt₂.year < 10000) (hmo₂ : dt₂.month < 100) (hd₂ : dt₂.day < 100)
    (hh₂ : dt₂.hour < 100) (hmi₂ : dt₂.minute < 100) (hs₂ : dt₂.second < 100)
    (hne : dt₁ ≠ dt₂) : archiveFilename dt₁ ≠ archiveFilename dt₂ := by
  intro h
  apply hne
  rw [archiveFilename, archiveFilename, secure_filename_screenr,
    secure_filename_screenr] at h
  have hd := congrArg String.data h
  simp only [String.data_append, formatTimestamp, List.append_assoc] at hd
  have hd' := List.append_cancel_left hd
  rcases List.append_inj hd' rfl with ⟨hp4, hrest⟩
  rcases List.append_inj hrest rfl with ⟨hp2a, hrest2⟩
  rcases List.append_inj hrest2 rfl with ⟨hp2b, hrest3⟩
  rcases List.append_inj hrest3 rfl with ⟨hp2c, hrest4⟩
  rcases List.append_inj hrest4 rfl with ⟨hp2d, hrest5⟩
  rcases List.append_inj hrest5 rfl with ⟨hp2e, _⟩
  have hy := pad4_inj hy₁ hy₂ (String.ext hp4)
  have hmo := pad2_inj hmo₁ hmo₂ (String.ext hp2a)
  have hdd := pad2_inj hd₁ hd₂ (String.ext hp2b)
  have hhh := pad2_inj hh₁ hh₂ (String.ext hp2c)
  have hmm := pad2_inj hmi₁ hmi₂ (String.ext hp2d)
  have hss := pad2_inj hs₁ hs₂ (String.ext hp2e)
  cases dt₁
  cases dt₂
  simp_all

/-- Witness for the amended C9: two timestamps one second apart yield
distinct filenames. -/
theorem C9_filename_uniqueness_per_second_witness :
    archiveFilename ⟨2026, 10, 12, 3, 4, 5⟩ ≠ archiveFilename ⟨2026, 10, 12, 3, 4, 6⟩ :=
  C9_filename_uniqueness_per_second ⟨2026, 10, 12, 3, 4, 5⟩ ⟨2026, 10, 12, 3, 4, 6⟩
    (by decide) (by decide) (by decide) (by decide) (by decide) (by decide)
    (by decide) (by decide) (by decide) (by decide) (by decide) (by decide)
    (by decide)

/-- Counterexample to C9 as stated: two distinct requests (different URLs)
handled in the same second are given the same request-independent target
path, so their files collide. -/
theorem C9_same_second_collision_counterexample :
    ("http://a.example" : String) ≠ "http://b.example" ∧
    (archive envAllOk [] ⟨2026, 10, 12, 3, 4, 5⟩ "http://a.example").target =
      (archive envAllOk [] ⟨2026, 10, 12, 3, 4, 5⟩ "http://b.example").target ∧
    (archive envAllOk [] ⟨2026, 10, 12, 3, 4, 5⟩ "http://a.example").target =
      some "/mnt/storage/uploads/screenr_20261012030405.png" := by
  decide

/-- C2 evaluation: chromium launches successfully, its context creation
raises, and the run ends with one successful `launch()` and zero `close()`
invocations — the launched instance is leaked, violating the cleanup
contract. -/
theorem C2_cleanup_leak :
    launchCount (save_webpage_as_image envLeak "/mnt/storage/uploads/w.png").events = 1 ∧
    closeCount (save_webpage_as_image envLeak "/mnt/storage/uploads/w.png").events = 0 ∧
    (save_webpage_as_image envLeak "/mnt/storage/uploads/w.png").events =
      [Event.launched .chromium] := by
  decide

end Screenr
